import Mathlib

/-!
Verification of the query-synthesis core of the pbi-dax-query-agent
repository: a shallow embedding, in Lean 4, of the field classifier,
implicit-measure renderer, query-pattern builder, filter wrapper,
condition-to-DAX translator, literal parser and measure-dependency
resolver, together with theorems settling the specification claims.
-/

-- ===== Python string primitives =====

/-- Python whitespace predicate used by str.strip and the \s regex class. -/
def pyIsSpace (c : Char) : Bool :=
  c = ' ' || c = '\t' || c = '\n' || c = '\r' || c = '\x0b' || c = '\x0c'

/-- Python str.lower (ASCII case folding as used on Usage labels). -/
def pyLower (s : String) : String := String.mk (s.data.map Char.toLower)

/-- Python str.upper. -/
def pyUpper (s : String) : String := String.mk (s.data.map Char.toUpper)

/-- Substring test on char lists: Python `needle in hay`. -/
def infixOfL (needle : List Char) : List Char → Bool
  | [] => needle.isEmpty
  | h :: t => needle.isPrefixOf (h :: t) || infixOfL needle t

/-- Python `sub in hay` on strings. -/
def strContains (hay sub : String) : Bool := infixOfL sub.data hay.data

/-- Python str.lstrip on char lists. -/
def lstripL (l : List Char) : List Char := l.dropWhile pyIsSpace

/-- Python str.rstrip on char lists. -/
def rstripL (l : List Char) : List Char := (l.reverse.dropWhile pyIsSpace).reverse

/-- Python str.strip on char lists. -/
def stripL (l : List Char) : List Char := rstripL (lstripL l)

/-- Python str.strip on strings. -/
def pyStrip (s : String) : String := String.mk (stripL s.data)

/-- Python str.startswith on strings. -/
def pyStartswith (s pre : String) : Bool := pre.data.isPrefixOf s.data

/-- Python str.endswith on strings. -/
def pyEndswith (s suf : String) : Bool := suf.data.isSuffixOf s.data

/-- Split a char list on a separator character (Python str.split(sep)). -/
def splitCh (sep : Char) : List Char → List (List Char)
  | [] => [[]]
  | c :: t =>
    if c = sep then [] :: splitCh sep t
    else
      match splitCh sep t with
      | h :: r => (c :: h) :: r
      | [] => [[c]]

/-- Python "\n".join on char-list lines. -/
def joinNL : List (List Char) → List Char
  | [] => []
  | [l] => l
  | l :: r => l ++ '\n' :: joinNL r

-- ===== tmdl_parser.py: semantic model =====

/-- A column parsed from a TMDL file (tmdl_parser.TmdlColumn). -/
structure TmdlColumn where
  table : String
  name : String
  data_type : String := ""
  is_hidden : Bool := false
deriving DecidableEq

/-- Semantic model parsed from TMDL files (tmdl_parser.SemanticModel).
Dicts keyed by (table, name) are modelled as association lists in
insertion order; the lookup indexes are not needed by the claims. -/
structure SemanticModel where
  measures : List ((String × String) × String) := []
  columns : List ((String × String) × TmdlColumn) := []
  source : String := ""
deriving DecidableEq

/-- SemanticModel.types_reliable: data types are untrusted when the model
came from pbixray (which marks all columns as string) or from an unknown
source. -/
def types_reliable (m : SemanticModel) : Bool :=
  ¬ (m.source = "pbixray" ∨ m.source = "")

/-- model.columns.get((table, column)): first association-list hit. -/
def columnsGet (m : SemanticModel) (table column : String) : Option TmdlColumn :=
  (m.columns.find? (fun p => p.1 = (table, column))).map (·.2)

/-- model.measures.get((table, name), ""): formula lookup with default. -/
def measuresGet (m : SemanticModel) (table name : String) : String :=
  ((m.measures.find? (fun p => p.1 = (table, name))).map (·.2)).getD ""

-- ===== dax_query_builder.py: field model and classification =====

/-- One field row of a visual, a dict produced by the metadata extractor
with keys ui_name, usage, table_sm, col_sm, measure_formula, and the
optional agg_func; measure_name is attached during deduplication. -/
structure VisualField where
  ui_name : String := ""
  usage : String := ""
  table_sm : String := ""
  col_sm : String := ""
  agg_func : Option String := none
  measure_formula : String := ""
  measure_name : String := ""
deriving DecidableEq

/-- Truthiness of f.get("agg_func"): present and a non-empty string. -/
def aggTruthy (f : VisualField) : Bool :=
  match f.agg_func with
  | some a => a ≠ ""
  | none => false

/-- dax_query_builder.classify_field: map a Usage label to a role. -/
def classify_field (usage : String) : String :=
  let u := pyLower usage
  if strContains u "slicer" then "slicer"
  else if strContains u "page filter" then "page_filter"
  else if strContains u "filter (measure)" then "measure"
  else if ["visual row", "visual column", "visual group"].any
      (fun k => strContains u k) then "grouping"
  else if ["visual value", "visual x", "visual y2", "visual tooltip",
           "visual size", "visual goal", "visual trend",
           "visual min", "visual max", "visual target"].any
      (fun k => strContains u k) then "measure"
  else if strContains u "filter" then "filter"
  else "other"

/-- dax_query_builder.classify_visual_fields: bucket a visual's fields
into (grouping, measures, filters, slicer_fields); fields with an
implicit aggregation whose label-based role is grouping or other are
forced to measure; "other" fields are dropped. -/
def classify_visual_fields : List VisualField → List VisualField × List VisualField × List VisualField × List VisualField
  | [] => ([], [], [], [])
  | f :: rest =>
    let (g, m, fl, s) := classify_visual_fields rest
    let role0 := classify_field f.usage
    let role := if aggTruthy f ∧ (role0 = "grouping" ∨ role0 = "other")
      then "measure" else role0
    if role = "grouping" then (f :: g, m, fl, s)
    else if role = "measure" then (g, f :: m, fl, s)
    else if role = "filter" then (g, m, f :: fl, s)
    else if role = "slicer" then (g, m, fl, f :: s)
    else if role = "page_filter" then (g, m, f :: fl, s)
    else (g, m, fl, s)

-- ===== dax_query_builder.py: implicit measures =====

/-- dax_query_builder.AGG_FUNC_MAP. -/
def AGG_FUNC_MAP : List (String × String) :=
  [("Sum", "SUM"), ("Avg", "AVERAGE"), ("Count", "COUNT"),
   ("Min", "MIN"), ("Max", "MAX"), ("CountNonNull", "COUNTA"),
   ("Median", "MEDIAN")]

/-- dax_query_builder.NUMERIC_ONLY_FUNCS. -/
def NUMERIC_ONLY_FUNCS : List String := ["SUM", "AVERAGE", "MEDIAN"]

/-- AGG_FUNC_MAP.get(agg_func, agg_func.upper()). -/
def daxFuncOf (agg_func : String) : String :=
  (((AGG_FUNC_MAP.find? (fun p => p.1 = agg_func)).map (·.2)).getD
    (pyUpper agg_func))

/-- dax_query_builder._implicit_measure_dax: DAX for a drag-and-drop
aggregation, with the SUMX/CONVERT iterator variant when the model
records the column as string-typed and the function needs numbers. -/
def implicit_measure_dax (agg_func table column : String)
    (model : Option SemanticModel) : String :=
  let dax_func := daxFuncOf agg_func
  let col_ref := "\x27" ++ table ++ "\x27[" ++ column ++ "]"
  let plain := dax_func ++ "(" ++ col_ref ++ ")"
  match model with
  | none => plain
  | some m =>
    if dax_func ∈ NUMERIC_ONLY_FUNCS then
      match columnsGet m table column with
      | some col_info =>
        if col_info.data_type = "string" then
          dax_func ++ "X(\x27" ++ table ++ "\x27, CONVERT(" ++ col_ref ++ ", DOUBLE))"
        else plain
      | none => plain
    else plain

/-- dax_query_builder._measure_expression. -/
def measure_expression (m : VisualField) (model : Option SemanticModel) : String :=
  if aggTruthy m then
    implicit_measure_dax (m.agg_func.getD "") m.table_sm m.measure_name model
  else "[" ++ m.measure_name ++ "]"

-- ===== dax_query_builder.py: query generation =====

/-- The measure-deduplication loop at the top of build_dax_query: keep
the first row per ui_name and attach measure_name, written to a copy of
the kept dict (m = dict(m)), taken from the first comma-separated token
of col_sm. -/
def uniqueMeasuresGo (seen : List String) : List VisualField → List VisualField
  | [] => []
  | m :: rest =>
    if m.ui_name ∈ seen then uniqueMeasuresGo seen rest
    else
      { m with measure_name :=
          String.mk (stripL (((splitCh ',' m.col_sm.data).headD []))) } ::
        uniqueMeasuresGo (m.ui_name :: seen) rest

/-- Measure deduplication with an initially empty seen set. -/
def unique_measures (measures : List VisualField) : List VisualField :=
  uniqueMeasuresGo [] measures

/-- The pattern-selection body of dax_query_builder.build_dax_query
(everything after the measure-deduplication step). -/
def build_dax_query_body (grouping measures filters slicer_fields : List VisualField)
    (visual_type : String) (model : Option SemanticModel) : String × String :=
  let _ := filters
  let is_slicer := visual_type == "slicer"
  if is_slicer && !slicer_fields.isEmpty then
    match slicer_fields with
    | [s] =>
      ("Pattern 2: Columns Only",
       "EVALUATE\nVALUES(\x27" ++ s.table_sm ++ "\x27[" ++ s.col_sm ++ "])")
    | _ =>
      ("Pattern 2: Columns Only",
       "EVALUATE\nDISTINCT(\n    SELECTCOLUMNS(\n" ++
         String.intercalate ",\n" (slicer_fields.map (fun s =>
           "        \"" ++ s.ui_name ++ "\", \x27" ++ s.table_sm ++ "\x27[" ++ s.col_sm ++ "]")) ++
         "\n    )\n)")
  else if grouping.isEmpty && !measures.isEmpty then
    match measures with
    | [m] =>
      ("Pattern 1: Single Measure",
       "EVALUATE\n\x7b " ++ measure_expression m model ++ " \x7d")
    | _ =>
      ("Pattern 1: Multiple Measures",
       "EVALUATE\nROW (\n" ++
         String.intercalate ",\n" (measures.map (fun m =>
           "    \"" ++ m.ui_name ++ "\", " ++ measure_expression m model)) ++
         "\n)")
  else if !grouping.isEmpty && measures.isEmpty then
    match grouping with
    | [g] =>
      ("Pattern 2: Columns Only",
       "EVALUATE\nVALUES(\x27" ++ g.table_sm ++ "\x27[" ++ g.col_sm ++ "])")
    | _ =>
      ("Pattern 2: Columns Only",
       "EVALUATE\nDISTINCT(\n    SELECTCOLUMNS(\n" ++
         String.intercalate ",\n" (grouping.map (fun g =>
           "        \"" ++ g.ui_name ++ "\", \x27" ++ g.table_sm ++ "\x27[" ++ g.col_sm ++ "]")) ++
         "\n    )\n)")
  else if !grouping.isEmpty && !measures.isEmpty then
    ("Pattern 3: Columns + Measures",
     "EVALUATE\nSUMMARIZECOLUMNS (\n" ++
       String.intercalate ",\n"
         (grouping.map (fun g => "    \x27" ++ g.table_sm ++ "\x27[" ++ g.col_sm ++ "]") ++
          measures.map (fun m => "    \"" ++ m.ui_name ++ "\", " ++ measure_expression m model)) ++
       "\n)")
  else ("Unknown", "-- Could not determine DAX pattern for this visual")

/-- dax_query_builder.build_dax_query: measure deduplication followed by
pattern selection; returns (pattern_name, dax_query_string). -/
def build_dax_query (grouping measures filters slicer_fields : List VisualField)
    (visual_type : String) (model : Option SemanticModel) : String × String :=
  build_dax_query_body grouping (unique_measures measures) filters slicer_fields
    visual_type model

-- ===== dax_query_builder.py: filter wrapping =====

/-- Whether a remainder of the input matches the regex tail \s*\x7d:
after skipping whitespace the next character is a closing brace. -/
def wsCloseB (r : List Char) : Bool :=
  match r.dropWhile pyIsSpace with
  | [] => false
  | c :: _ => c = '\x7d'

/-- The lazy group (.+?)\s*\x7d of the brace regex: the shortest
non-empty newline-free prefix whose remainder is whitespace then
a closing brace. -/
def lazyContent : List Char → Option (List Char)
  | [] => none
  | ch :: t =>
    if ch = '\n' then none
    else if wsCloseB t then some [ch]
    else
      match lazyContent t with
      | some cs => some (ch :: cs)
      | none => none

/-- Backtracking over the greedy \s* after the opening brace: try the
longest whitespace run first, then shorter ones. -/
def tryW : Nat → List Char → Option (List Char)
  | 0, rest => lazyContent rest
  | w + 1, rest =>
    match lazyContent (rest.drop (w + 1)) with
    | some cap => some cap
    | none => tryW w rest

/-- Attempt the regex match right after an opening brace. -/
def matchBraceAt (rest : List Char) : Option (List Char) :=
  tryW ((rest.takeWhile pyIsSpace).length) rest

/-- re.search for the pattern matching an opening brace, optional
whitespace, a lazily captured non-empty group, optional whitespace and
a closing brace: leftmost successful match, returning the group. -/
def braceSearchL : List Char → Option (List Char)
  | [] => none
  | c :: t =>
    if c = '\x7b' then
      match matchBraceAt t with
      | some cap => some cap
      | none => braceSearchL t
    else braceSearchL t

/-- String-level wrapper for the measure-reference regex search in
wrap_dax_with_filters. -/
def braceSearch (s : String) : Option String := (braceSearchL s.data).map String.mk

/-- The comment-stripping preamble shared by the wrappers: keep the
lines before the first "-- Filter:" line and right-strip the result. -/
def stripFilterComments (s : String) : String :=
  let lines := splitCh '\n' s.data
  let core_lines := lines.takeWhile
    (fun l => !(pyStartswith (String.mk (stripL l)) "-- Filter:"))
  String.mk (rstripL (joinNL core_lines))

/-- dax_query_builder.wrap_dax_with_filters: wrap a base query with
bookmark filter expressions; CALCULATE inside the braces for the
single-measure pattern, CALCULATETABLE around the body otherwise. -/
def wrap_dax_with_filters (base_dax : String) (filter_exprs : List String)
    (pattern : String) : String :=
  if filter_exprs.isEmpty then base_dax
  else
    let clean_dax := stripFilterComments base_dax
    let filter_args := String.intercalate ",\n    " filter_exprs
    let calculatetable :=
      let inner :=
        if pyStartswith (pyUpper clean_dax) "EVALUATE" then
          pyStrip (String.mk (clean_dax.data.drop 8))
        else clean_dax
      "EVALUATE\nCALCULATETABLE(\n    " ++ inner ++ ",\n    " ++ filter_args ++ "\n)"
    if pattern = "Pattern 1: Single Measure" then
      match braceSearch clean_dax with
      | some measure_ref =>
        "EVALUATE\n\x7b CALCULATE(" ++ measure_ref ++ ",\n    " ++ filter_args ++ "\n) \x7d"
      | none => calculatetable
    else calculatetable

-- ===== dax_query_builder.py: filter redundancy =====

/-- One attempted match of the regex for a quoted column reference: an
apostrophe, a non-empty apostrophe-free table name, an apostrophe, then
a bracketed non-empty column name.  Returns the two groups and the
match length. -/
def tryQuotedRefAt : List Char → Option ((List Char × List Char) × Nat)
  | '\x27' :: rest =>
    let tbl := rest.takeWhile (fun c => c ≠ '\x27')
    if tbl.isEmpty then none
    else
      match rest.drop tbl.length with
      | '\x27' :: '[' :: rest2 =>
        let col := rest2.takeWhile (fun c => c ≠ ']')
        if col.isEmpty then none
        else
          match rest2.drop col.length with
          | ']' :: _ => some ((tbl, col), tbl.length + col.length + 4)
          | _ => none
      | _ => none
  | _ => none

/-- findall over a char list for the quoted-column-reference regex:
leftmost, non-overlapping matches (fuel bounds the scan length). -/
def quotedRefScan (fuel : Nat) (s : List Char) : List (List Char × List Char) :=
  match fuel with
  | 0 => []
  | fuel + 1 =>
    match s with
    | [] => []
    | _ :: t =>
      match tryQuotedRefAt s with
      | some (g, len) => g :: quotedRefScan fuel (s.drop len)
      | none => quotedRefScan fuel t

/-- dax_query_builder.parse_filter_column_refs: extract de-duplicated
(table, column) pairs from the filter expressions. -/
def parse_filter_column_refs (filter_exprs : List String) : List (String × String) :=
  filter_exprs.foldl
    (fun refs expr =>
      (quotedRefScan expr.data.length expr.data).foldl
        (fun refs g =>
          let ref := (String.mk (stripL g.1), String.mk (stripL g.2))
          if ref ∈ refs then refs else refs ++ [ref])
        refs)
    []

/-- A redundancy warning row produced by check_filter_redundancy. -/
structure RedundancyWarning where
  measure_name : String
  filter_expr : String
  filter_table : String
  filter_column : String
  measure_formula : String
deriving DecidableEq

/-- The formula used for a measure by check_filter_redundancy:
the field's own measure_formula, else the semantic-model fallback. -/
def redundancy_formula (m : VisualField) (model : Option SemanticModel) : String :=
  if m.measure_formula ≠ "" then m.measure_formula
  else
    match model with
    | some sm => measuresGet sm m.table_sm m.col_sm
    | none => ""

/-- The triple containment test of check_filter_redundancy: the
uppercased formula contains the quoted reference, the unquoted
reference, or the bare column when the measure lives on the same
table. -/
def filter_ref_in_formula (formula ftable fcol table_sm : String) : Bool :=
  strContains (pyUpper formula) (pyUpper ("\x27" ++ ftable ++ "\x27[" ++ fcol ++ "]")) ||
  strContains (pyUpper formula) (pyUpper (ftable ++ "[" ++ fcol ++ "]")) ||
  (strContains (pyUpper formula) (pyUpper ("[" ++ fcol ++ "]")) &&
    pyUpper table_sm == pyUpper ftable)

/-- dax_query_builder.check_filter_redundancy: warn for each measure
whose formula already references a filtered column; the reported
filter_expr is the first expression containing the reference verbatim,
with the first expression as fallback. -/
def check_filter_redundancy (measures : List VisualField)
    (filter_exprs : List String) (model : Option SemanticModel) :
    List RedundancyWarning :=
  let filter_refs := parse_filter_column_refs filter_exprs
  if filter_refs.isEmpty then []
  else
    (measures.map (fun m =>
      let formula := redundancy_formula m model
      if formula = "" then []
      else
        filter_refs.filterMap (fun ftc =>
          if filter_ref_in_formula formula ftc.1 ftc.2 m.table_sm then
            some { measure_name := m.col_sm,
                   filter_expr :=
                     ((filter_exprs.find? (fun e =>
                         strContains e ("\x27" ++ ftc.1 ++ "\x27[" ++ ftc.2 ++ "]"))).getD
                       (filter_exprs.headD "")),
                   filter_table := ftc.1,
                   filter_column := ftc.2,
                   measure_formula := String.mk (formula.data.take 80) }
          else none))).flatten

/-- The filter-redundancy block of get_single_visual_query (the lines
between building the base query and wrapping): compute the active
filter list after dropping the expressions named in redundancy
warnings. -/
def single_visual_active_filters (fields : List VisualField)
    (filter_exprs : List String) (model : Option SemanticModel) : List String :=
  if filter_exprs.isEmpty then filter_exprs
  else
    let measure_fields := fields.filter (fun f => classify_field f.usage == "measure")
    let warnings := check_filter_redundancy measure_fields filter_exprs model
    if warnings.isEmpty then filter_exprs
    else
      let conflicting := warnings.map (·.filter_expr)
      filter_exprs.filter (fun f => !(conflicting.contains f))

-- ===== bookmark_parser.py: literal parsing =====

/-- int() on a digit string: decimal value (drops leading zeros). -/
def digitsVal (l : List Char) : Nat := l.foldl (fun a c => 10 * a + (c.toNat - 48)) 0

/-- re.match for the anchored datetime prefix: the literal characters
of datetime followed by an apostrophe, four digits, a dash, two digits,
a dash, two digits and the letter T; returns the int() of the groups. -/
def matchDatetime (l : List Char) : Option (Nat × Nat × Nat) :=
  if l.take 9 = "datetime\x27".data then
    match l.drop 9 with
    | y1 :: y2 :: y3 :: y4 :: s1 :: m1 :: m2 :: s2 :: d1 :: d2 :: t :: _ =>
      if [y1, y2, y3, y4, m1, m2, d1, d2].all Char.isDigit ∧
          s1 = '-' ∧ s2 = '-' ∧ t = 'T' then
        some (digitsVal [y1, y2, y3, y4], digitsVal [m1, m2], digitsVal [d1, d2])
      else none
    | _ => none
  else none

/-- Strip the optional leading minus sign of the numeric regexes. -/
def longCore (l : List Char) : List Char :=
  if l.head? = some '-' then l.tail else l

/-- Full-string match for an optional minus, one or more digits and a
trailing letter L. -/
def matchesLongRe (l : List Char) : Bool :=
  if (longCore l).getLast? = some 'L' then
    !((longCore l).dropLast.isEmpty) && (longCore l).dropLast.all Char.isDigit
  else false

/-- Full-string match for an optional minus, digits, and an optional
dot-digits fraction. -/
def matchesDecCore (body : List Char) : Bool :=
  match splitCh '.' (longCore body) with
  | [a] => !a.isEmpty && a.all Char.isDigit
  | [a, b] => !a.isEmpty && a.all Char.isDigit && !b.isEmpty && b.all Char.isDigit
  | _ => false

/-- Full-string match for a decimal number with a trailing letter D. -/
def matchesDecDRe (l : List Char) : Bool :=
  if l.getLast? = some 'D' then matchesDecCore l.dropLast else false

/-- Double embedded double quotes (the string-literal escaping step). -/
def escapeQuotes (l : List Char) : List Char :=
  l.flatMap (fun c => if c = '"' then ['"', '"'] else [c])

/-- bookmark_parser.parse_literal: convert a PBI literal value string
(or Python None, modelled as Option.none) to a DAX representation. -/
def parse_literal : Option String → String
  | none => "BLANK()"
  | some value_str =>
    let s := pyStrip value_str
    if pyLower s = "null" then "BLANK()"
    else if pyLower s = "true" || pyLower s = "false" then pyUpper s
    else
      match matchDatetime s.data with
      | some (y, m, d) =>
        "DATE(" ++ toString y ++ ", " ++ toString m ++ ", " ++ toString d ++ ")"
      | none =>
        if pyStartswith s "\x27" && pyEndswith s "\x27" && decide (s.data.length ≥ 2) then
          "\"" ++ String.mk (escapeQuotes ((s.data.drop 1).dropLast)) ++ "\""
        else if matchesLongRe s.data then
          let num := String.mk s.data.dropLast
          if pyStartswith num "-" then
            num ++ " /* relative offset — cannot resolve statically */"
          else num
        else if matchesDecDRe s.data then String.mk s.data.dropLast
        else if matchesDecCore s.data then s
        else s

-- ===== bookmark_parser.py: condition trees =====

/-- JSON values as stored in bookmark files; Python dicts become
association lists in insertion order. -/
inductive Json where
  | null : Json
  | bool (b : Bool) : Json
  | num (n : Int) : Json
  | str (s : String) : Json
  | arr (elems : List Json) : Json
  | obj (members : List (String × Json)) : Json

mutual

/-- Size of a JSON value, used only to seed the recursion fuel of the
condition translator. -/
def jsize : Json → Nat
  | Json.null => 1
  | Json.bool _ => 1
  | Json.num _ => 1
  | Json.str _ => 1
  | Json.arr es => 1 + jsizeArr es
  | Json.obj ms => 1 + jsizeObj ms

/-- Size of a JSON array body. -/
def jsizeArr : List Json → Nat
  | [] => 0
  | j :: t => jsize j + jsizeArr t

/-- Size of a JSON dict body. -/
def jsizeObj : List (String × Json) → Nat
  | [] => 0
  | kv :: t => jsize kv.2 + jsizeObj t

end

/-- Python dict lookup (None when the key is absent). -/
def jlookup (members : List (String × Json)) (k : String) : Option Json :=
  (members.find? (fun kv => kv.1 = k)).map (·.2)

/-- View a JSON value as a dict; non-dicts give the empty dict. -/
def Json.asObj : Json → List (String × Json)
  | .obj ms => ms
  | _ => []

/-- View a JSON value as a list; non-lists give the empty list. -/
def Json.asArr : Json → List Json
  | .arr es => es
  | _ => []

/-- d.get(k, \x7b\x7d) followed by dict view. -/
def jgetObj (d : List (String × Json)) (k : String) : List (String × Json) :=
  ((jlookup d k).getD (Json.obj [])).asObj

/-- d.get(k, "") for string-valued keys. -/
def jgetStr (d : List (String × Json)) (k : String) : String :=
  match jlookup d k with
  | some (Json.str s) => s
  | _ => ""

/-- Python truthiness of a JSON value. -/
def jTruthy : Json → Bool
  | .null => false
  | .bool b => b
  | .num n => n ≠ 0
  | .str s => s ≠ ""
  | .arr es => !es.isEmpty
  | .obj ms => !ms.isEmpty

/-- The argument handed to parse_literal for a Literal node:
.get("Value", "") where a JSON null is Python None. -/
def literalValueArg (litObj : List (String × Json)) : Option String :=
  match jlookup litObj "Value" with
  | none => some ""
  | some Json.null => none
  | some (Json.str s) => some s
  | some (Json.bool b) => some (if b then "True" else "False")
  | some (Json.num n) => some (toString n)
  | some _ => some ""

/-- bookmark_parser._COMPARISON_OPS with its default: map the
ComparisonKind code to a DAX operator, defaulting to equality. -/
def comparisonOp : Json → String
  | .num 0 => "="
  | .num 1 => ">"
  | .num 2 => ">="
  | .num 3 => "<"
  | .num 4 => "<="
  | .num 5 => "<>"
  | _ => "="

/-- Dict assignment alias_map[alias] = entity. -/
def aliasSet : List (String × String) → String → String → List (String × String)
  | [], k, v => [(k, v)]
  | (k', v') :: t, k, v =>
    if k' = k then (k, v) :: t else (k', v') :: aliasSet t k v

/-- bookmark_parser._build_alias_map. -/
def build_alias_map (from_entities : List Json) : List (String × String) :=
  from_entities.foldl
    (fun amap entry =>
      let alias_name := jgetStr entry.asObj "Name"
      let entity := jgetStr entry.asObj "Entity"
      if alias_name ≠ "" ∧ entity ≠ "" then aliasSet amap alias_name entity else amap)
    []

/-- Alias lookup in the alias map. -/
def aliasLookup (amap : List (String × String)) (k : String) : Option String :=
  (amap.find? (fun kv => kv.1 = k)).map (·.2)

/-- bookmark_parser._resolve_column_ref: (table, column) of a Column
expression, preferring the alias map over a direct Entity. -/
def resolve_column_ref (col_expr : Json) (alias_map : List (String × String)) :
    String × String :=
  let col := jgetObj col_expr.asObj "Column"
  let prop := jgetStr col "Property"
  let source_ref := jgetObj (jgetObj col "Expression") "SourceRef"
  let source_alias := jgetStr source_ref "Source"
  let table :=
    if source_alias ≠ "" ∧ (aliasLookup alias_map source_alias).isSome then
      (aliasLookup alias_map source_alias).getD ""
    else jgetStr source_ref "Entity"
  (table, prop)

/-- The quoted-table column reference rendering with bare-column
fallback for an empty table. -/
def col_ref_str (table col : String) : String :=
  if table ≠ "" then "\x27" ++ table ++ "\x27[" ++ col ++ "]"
  else "[" ++ col ++ "]"

/-- bookmark_parser._in_to_dax. -/
def in_to_dax (in_node : List (String × Json)) (alias_map : List (String × String))
    (negated : Bool) : String :=
  let expressions := ((jlookup in_node "Expressions").getD (Json.arr [])).asArr
  let values := ((jlookup in_node "Values").getD (Json.arr [])).asArr
  match expressions with
  | [] => "-- empty IN expression"
  | col_expr :: _ =>
    let tc := resolve_column_ref col_expr alias_map
    let col_ref := col_ref_str tc.1 tc.2
    let dax_values := values.filterMap (fun val_row =>
      match val_row with
      | Json.arr (v0 :: _) =>
        some (parse_literal (literalValueArg (jgetObj v0.asObj "Literal")))
      | _ => none)
    match dax_values with
    | [v] => if negated then col_ref ++ " <> " ++ v else col_ref ++ " = " ++ v
    | _ =>
      (if negated then "NOT " else "") ++ col_ref ++ " IN \x7b" ++
        String.intercalate ", " dax_values ++ "\x7d"

/-- bookmark_parser._condition_to_dax_inner: recursive translation of a
condition dict to a DAX boolean expression; the fuel argument bounds
the recursion depth (the top-level entry point passes more fuel than
the tree is deep, so the 0 case is never reached). -/
def condition_to_dax_inner (fuel : Nat) (condition : List (String × Json))
    (alias_map : List (String × String)) : String :=
  match fuel with
  | 0 => "-- unsupported condition type"
  | fuel + 1 =>
    match jlookup condition "Comparison" with
    | some comp =>
      let c := comp.asObj
      let op := comparisonOp ((jlookup c "ComparisonKind").getD (Json.num 0))
      let tc := resolve_column_ref ((jlookup c "Left").getD (Json.obj [])) alias_map
      let col_ref := col_ref_str tc.1 tc.2
      let dax_val := parse_literal (literalValueArg
        (jgetObj ((jlookup c "Right").getD (Json.obj [])).asObj "Literal"))
      col_ref ++ " " ++ op ++ " " ++ dax_val
    | none =>
    match jlookup condition "In" with
    | some innode => in_to_dax innode.asObj alias_map false
    | none =>
    match jlookup condition "Not" with
    | some notnode =>
      let inner_expr := (jlookup notnode.asObj "Expression").getD (Json.obj [])
      match jlookup inner_expr.asObj "In" with
      | some innode => in_to_dax innode.asObj alias_map true
      | none =>
        "NOT (" ++ condition_to_dax_inner fuel inner_expr.asObj alias_map ++ ")"
    | none =>
    match jlookup condition "And" with
    | some andnode =>
      let left_dax := condition_to_dax_inner fuel (jgetObj andnode.asObj "Left") alias_map
      let right_dax := condition_to_dax_inner fuel (jgetObj andnode.asObj "Right") alias_map
      left_dax ++ " && " ++ right_dax
    | none =>
    match jlookup condition "Or" with
    | some ornode =>
      let left_dax := condition_to_dax_inner fuel (jgetObj ornode.asObj "Left") alias_map
      let right_dax := condition_to_dax_inner fuel (jgetObj ornode.asObj "Right") alias_map
      "(" ++ left_dax ++ ") || (" ++ right_dax ++ ")"
    | none =>
    match jlookup condition "Between" with
    | some bnode =>
      let tc := resolve_column_ref ((jlookup bnode.asObj "Left").getD (Json.obj [])) alias_map
      let col_ref := col_ref_str tc.1 tc.2
      let lower_val := parse_literal (literalValueArg (jgetObj (jgetObj bnode.asObj "Lower") "Literal"))
      let upper_val := parse_literal (literalValueArg (jgetObj (jgetObj bnode.asObj "Upper") "Literal"))
      col_ref ++ " >= " ++ lower_val ++ " && " ++ col_ref ++ " <= " ++ upper_val
    | none =>
    match jlookup condition "Contains" with
    | some node =>
      let tc := resolve_column_ref ((jlookup node.asObj "Left").getD (Json.obj [])) alias_map
      let col_ref := col_ref_str tc.1 tc.2
      let dax_val := parse_literal (literalValueArg
        (jgetObj ((jlookup node.asObj "Right").getD (Json.obj [])).asObj "Literal"))
      "CONTAINSSTRING(" ++ col_ref ++ ", " ++ dax_val ++ ")"
    | none =>
    match jlookup condition "DoesNotContain" with
    | some node =>
      let tc := resolve_column_ref ((jlookup node.asObj "Left").getD (Json.obj [])) alias_map
      let col_ref := col_ref_str tc.1 tc.2
      let dax_val := parse_literal (literalValueArg
        (jgetObj ((jlookup node.asObj "Right").getD (Json.obj [])).asObj "Literal"))
      "NOT CONTAINSSTRING(" ++ col_ref ++ ", " ++ dax_val ++ ")"
    | none =>
    match jlookup condition "StartsWith" with
    | some node =>
      let tc := resolve_column_ref ((jlookup node.asObj "Left").getD (Json.obj [])) alias_map
      let col_ref := col_ref_str tc.1 tc.2
      let dax_val := parse_literal (literalValueArg
        (jgetObj ((jlookup node.asObj "Right").getD (Json.obj [])).asObj "Literal"))
      "LEFT(" ++ col_ref ++ ", LEN(" ++ dax_val ++ ")) = " ++ dax_val
    | none =>
    match jlookup condition "DoesNotStartWith" with
    | some node =>
      let tc := resolve_column_ref ((jlookup node.asObj "Left").getD (Json.obj [])) alias_map
      let col_ref := col_ref_str tc.1 tc.2
      let dax_val := parse_literal (literalValueArg
        (jgetObj ((jlookup node.asObj "Right").getD (Json.obj [])).asObj "Literal"))
      "NOT (LEFT(" ++ col_ref ++ ", LEN(" ++ dax_val ++ ")) = " ++ dax_val ++ ")"
    | none =>
    match jlookup condition "IsBlank" with
    | some node =>
      let tc := resolve_column_ref ((jlookup node.asObj "Expression").getD (Json.obj [])) alias_map
      "ISBLANK(" ++ col_ref_str tc.1 tc.2 ++ ")"
    | none =>
    match jlookup condition "IsNotBlank" with
    | some node =>
      let tc := resolve_column_ref ((jlookup node.asObj "Expression").getD (Json.obj [])) alias_map
      "NOT ISBLANK(" ++ col_ref_str tc.1 tc.2 ++ ")"
    | none => "-- unsupported condition type"

/-- bookmark_parser.condition_to_dax. -/
def condition_to_dax (condition : List (String × Json)) (from_entities : List Json) :
    String :=
  condition_to_dax_inner (jsizeObj condition + 1) condition (build_alias_map from_entities)

/-- bookmark_parser._extract_single_filter: render the Where conditions
of a filter object, skipping falsy or marker results. -/
def extract_single_filter (filter_obj : List (String × Json)) : List String :=
  match jlookup filter_obj "filter" with
  | none => []
  | some query_filter =>
    if !jTruthy query_filter then []
    else
      let from_entities := ((jlookup query_filter.asObj "From").getD (Json.arr [])).asArr
      let where_clauses := ((jlookup query_filter.asObj "Where").getD (Json.arr [])).asArr
      where_clauses.filterMap (fun w =>
        let condition := (jlookup w.asObj "Condition").getD (Json.obj [])
        if jTruthy condition then
          let dax := condition_to_dax condition.asObj from_entities
          if dax ≠ "" ∧ ¬ pyStartswith dax "--" then some dax else none
        else none)

-- ===== extract_metadata.py: measure dependency resolution =====

/-- The regex \w class (ASCII word character). -/
def isWordChar (c : Char) : Bool := c.isAlphanum || c = '_'

/-- Match a bracketed column: an opening bracket, one or more
non-closing-bracket characters, and a closing bracket.  Returns the
captured content and the match length. -/
def tryBracketAt : List Char → Option (List Char × Nat)
  | '[' :: r =>
    let col := r.takeWhile (fun c => c ≠ ']')
    if col.isEmpty then none
    else
      match r.drop col.length with
      | ']' :: _ => some (col, col.length + 2)
      | _ => none
  | _ => none

/-- Lazy scan for the shortest word-or-space span followed by a
bracketed column (the lazily-quantified unquoted-table alternative of
the direct-reference regex).  Returns the span length, the column and
the bracket length. -/
def lazyWordSpan (s : List Char) : Option (Nat × List Char × Nat) :=
  match tryBracketAt s with
  | some (col, bl) => some (0, col, bl)
  | none =>
    match s with
    | c :: t =>
      if isWordChar c || pyIsSpace c then
        match lazyWordSpan t with
        | some (k, col, bl) => some (k + 1, col, bl)
        | none => none
      else none
    | [] => none

/-- One attempted match of the direct-reference regex at a position:
either a quoted table name or a letter-or-underscore-led lazy word
span, followed by a bracketed column.  The two table groups are
collapsed into one, mirroring the (quoted or unquoted) use site.
Returns ((table_group, column), match length). -/
def tryDirectAt (s : List Char) : Option ((List Char × List Char) × Nat) :=
  match s with
  | '\x27' :: _ => tryQuotedRefAt s
  | c :: rest =>
    if c.isAlpha || c = '_' then
      match lazyWordSpan rest with
      | some (k, col, bl) => some ((c :: rest.take k, col), 1 + k + bl)
      | none => none
    else none
  | [] => none

/-- findall for the direct-reference regex: leftmost non-overlapping
matches (fuel bounds the scan length). -/
def directRefScan (fuel : Nat) (s : List Char) : List (List Char × List Char) :=
  match fuel with
  | 0 => []
  | fuel + 1 =>
    match s with
    | [] => []
    | _ :: t =>
      match tryDirectAt s with
      | some (g, len) => g :: directRefScan fuel (s.drop len)
      | none => directRefScan fuel t

/-- The negative lookbehind of the nested-reference regex: the previous
character must not be an apostrophe, a word character or a closing
bracket. -/
def nestedPrevOk : Option Char → Bool
  | none => true
  | some c => !(c = '\x27' || isWordChar c || c = ']')

/-- findall for the nested-reference regex: a bracketed name not
preceded by an apostrophe, word character or closing bracket. -/
def nestedRefScan (fuel : Nat) (prev : Option Char) (s : List Char) : List (List Char) :=
  match fuel with
  | 0 => []
  | fuel + 1 =>
    match s with
    | [] => []
    | c :: t =>
      if c = '[' ∧ nestedPrevOk prev then
        match tryBracketAt (c :: t) with
        | some (ref, len) => ref :: nestedRefScan fuel (some ']') ((c :: t).drop len)
        | none => nestedRefScan fuel (some c) t
      else nestedRefScan fuel (some c) t

/-- A \x7btable, column\x7d dependency dict, modelled as a pair. -/
abbrev MeasureDep := String × String

/-- Append a dependency unless it is already present. -/
def addDep (deps : List MeasureDep) (d : MeasureDep) : List MeasureDep :=
  if d ∈ deps then deps else deps ++ [d]

/-- The direct-reference pass of resolve_measure_dependencies: findall,
strip the groups, keep pairs with non-empty table and column,
de-duplicated in order. -/
def directDeps (formula : String) : List MeasureDep :=
  (directRefScan formula.data.length formula.data).foldl
    (fun deps g =>
      let table := String.mk (stripL g.1)
      let col := String.mk (stripL g.2)
      if table ≠ "" ∧ col ≠ "" then addDep deps (table, col) else deps)
    []

/-- The nested standalone-bracket references of a formula. -/
def nestedRefsOf (formula : String) : List String :=
  (nestedRefScan formula.data.length none formula.data).map String.mk

/-- Merge a sub-resolution's dependencies into the accumulator,
skipping duplicates. -/
def mergeDeps (deps sub : List MeasureDep) : List MeasureDep :=
  sub.foldl addDep deps

/-- Number of measure names in the lookup not yet visited: the
termination measure of the resolver. -/
def unvisitedCount (lookup : List ((String × String) × String))
    (visited : List String) : Nat :=
  ((lookup.map (fun p => p.1.2)).toFinset \ visited.toFinset).card

/-- The nested-reference loop of extract_metadata.resolve_measure_dependencies,
with the mutated visited set threaded through explicitly (the returned
list extends the input visited set, which the subtype records for the
termination argument).  For each stripped reference not already present
as a dependency column and not yet visited, mark it visited, look up
the first measure of that name, record it and recursively resolve its
formula, merging the sub-dependencies. -/
def resolveRefs (lookup : List ((String × String) × String)) :
    (refs : List String) → (deps : List MeasureDep) → (visited : List String) →
    { r : List MeasureDep × List String // ∀ v ∈ visited, v ∈ r.2 }
  | [], deps, visited => ⟨(deps, visited), fun _ hv => hv⟩
  | r :: rest, deps, visited =>
    let ref_name := pyStrip r
    if deps.any (fun d => d.2 = ref_name) then
      resolveRefs lookup rest deps visited
    else if hv : ref_name ∈ visited then
      resolveRefs lookup rest deps visited
    else
      match hfind : lookup.find? (fun p => p.1.2 = ref_name) with
      | none =>
        let res := resolveRefs lookup rest deps (visited ++ [ref_name])
        ⟨res.1, fun v hmem => res.2 v (List.mem_append_left _ hmem)⟩
      | some p =>
        let sub := resolveRefs lookup (nestedRefsOf p.2) (directDeps p.2)
          (visited ++ [ref_name])
        let res := resolveRefs lookup rest
          (mergeDeps (addDep deps (p.1.1, ref_name)) sub.1.1) sub.1.2
        ⟨res.1, fun v hmem => res.2 v (sub.2 v (List.mem_append_left _ hmem))⟩
termination_by refs _ visited => (unvisitedCount lookup visited, refs.length)
decreasing_by
  · exact Prod.Lex.right _ (Nat.lt_succ_self _)
  · exact Prod.Lex.right _ (Nat.lt_succ_self _)
  · have hle : unvisitedCount lookup (visited ++ [ref_name]) ≤ unvisitedCount lookup visited := by
      apply Finset.card_le_card
      apply Finset.sdiff_subset_sdiff (le_refl _)
      intro x hx
      rw [List.toFinset_append]
      exact Finset.mem_union_left _ hx
    rcases Nat.lt_or_ge (unvisitedCount lookup (visited ++ [ref_name]))
        (unvisitedCount lookup visited) with hlt | hge
    · exact Prod.Lex.left _ _ hlt
    · have heq : unvisitedCount lookup (visited ++ [ref_name]) = unvisitedCount lookup visited :=
        Nat.le_antisymm hle hge
      rw [heq]
      exact Prod.Lex.right _ (Nat.lt_succ_self _)
  · apply Prod.Lex.left
    have hp2 : p.1.2 = ref_name := by
      have h2 := List.find?_some hfind
      simpa using h2
    have hmem : ref_name ∈ lookup.map (fun p => p.1.2) := by
      have h1 := List.mem_of_find?_eq_some hfind
      exact hp2 ▸ List.mem_map_of_mem _ h1
    apply Finset.card_lt_card
    constructor
    · apply Finset.sdiff_subset_sdiff (le_refl _)
      intro x hx
      rw [List.toFinset_append]
      exact Finset.mem_union_left _ hx
    · intro hall
      have hxin : ref_name ∈ (lookup.map (fun p => p.1.2)).toFinset \ visited.toFinset := by
        rw [Finset.mem_sdiff]
        exact ⟨List.mem_toFinset.2 hmem, fun hc => hv (List.mem_toFinset.1 hc)⟩
      have hxout := hall hxin
      rw [Finset.mem_sdiff, List.toFinset_append] at hxout
      exact hxout.2 (Finset.mem_union_right _ (by simp))
  · apply Prod.Lex.left
    have hp2 : p.1.2 = ref_name := by
      have h2 := List.find?_some hfind
      simpa using h2
    have hmem : ref_name ∈ lookup.map (fun p => p.1.2) := by
      have h1 := List.mem_of_find?_eq_some hfind
      exact hp2 ▸ List.mem_map_of_mem _ h1
    have hstep : unvisitedCount lookup (visited ++ [ref_name]) < unvisitedCount lookup visited := by
      apply Finset.card_lt_card
      constructor
      · apply Finset.sdiff_subset_sdiff (le_refl _)
        intro x hx
        rw [List.toFinset_append]
        exact Finset.mem_union_left _ hx
      · intro hall
        have hxin : ref_name ∈ (lookup.map (fun p => p.1.2)).toFinset \ visited.toFinset := by
          rw [Finset.mem_sdiff]
          exact ⟨List.mem_toFinset.2 hmem, fun hc => hv (List.mem_toFinset.1 hc)⟩
        have hxout := hall hxin
        rw [Finset.mem_sdiff, List.toFinset_append] at hxout
        exact hxout.2 (Finset.mem_union_right _ (by simp))
    have hmono : unvisitedCount lookup sub.1.2 ≤ unvisitedCount lookup (visited ++ [ref_name]) := by
      apply Finset.card_le_card
      apply Finset.sdiff_subset_sdiff (le_refl _)
      intro x hx
      exact List.mem_toFinset.2 (sub.2 x (List.mem_toFinset.1 hx))
    exact Nat.lt_of_le_of_lt hmono hstep

/-- extract_metadata.resolve_measure_dependencies with its default
empty visited set: direct references first, then the resolved nested
references. -/
def resolve_measure_dependencies (formula : String)
    (lookup : List ((String × String) × String)) : List MeasureDep :=
  (resolveRefs lookup (nestedRefsOf formula) (directDeps formula) []).1.1

-- ===== dax_query_builder.py: dict-level view of build_dax_query =====

/-- A Python dict with string keys and values (a visual-field row as it
exists in the extractor output), in insertion order. -/
abbrev FieldDict := List (String × String)

/-- heap[i][k] read with defaults (missing refs and keys read as the
empty string). -/
def hget (heap : List FieldDict) (i : Nat) (k : String) : String :=
  (((heap.getD i []).find? (fun kv => kv.1 = k)).map (·.2)).getD ""

/-- Python dict assignment d[k] = v. -/
def dictSet : FieldDict → String → String → FieldDict
  | [], k, v => [(k, v)]
  | (k', v') :: t, k, v =>
    if k' = k then (k, v) :: t else (k', v') :: dictSet t k v

/-- The measure-deduplication loop of build_dax_query at Python dict
granularity, with field dicts living on an explicit heap and the
buckets holding references into it: m = dict(m) allocates a copy at
the end of the heap and the measure_name assignment writes only to
that copy.  Returns the kept refs and the extended heap. -/
def uniqueMeasuresDicts (heap : List FieldDict) (seen : List String) :
    List Nat → List Nat × List FieldDict
  | [] => ([], heap)
  | r :: rest =>
    if hget heap r "ui_name" ∈ seen then uniqueMeasuresDicts heap seen rest
    else
      let copy := dictSet (heap.getD r []) "measure_name"
        (String.mk (stripL ((splitCh ',' (hget heap r "col_sm").data).headD [])))
      let idx := heap.length
      let rec_result := uniqueMeasuresDicts (heap ++ [copy])
        (hget heap r "ui_name" :: seen) rest
      (idx :: rec_result.1, rec_result.2)

/-- Materialize the field dict at a heap ref into a VisualField record
(a read-only view; the truthiness of f.get("agg_func") collapses a
missing key and an empty value). -/
def fieldOfDict (heap : List FieldDict) (i : Nat) : VisualField :=
  { ui_name := hget heap i "ui_name",
    usage := hget heap i "usage",
    table_sm := hget heap i "table_sm",
    col_sm := hget heap i "col_sm",
    agg_func := if hget heap i "agg_func" = "" then none else some (hget heap i "agg_func"),
    measure_formula := hget heap i "measure_formula",
    measure_name := hget heap i "measure_name" }

/-- dax_query_builder.build_dax_query over a heap of field dicts: the
deduplication step is the only write (to fresh copies); the
pattern-selection part performs reads only, expressed by materializing
each referenced dict and reusing the pure body.  Returns the
(pattern, dax) pair and the final heap. -/
def build_dax_query_dicts (heap : List FieldDict)
    (grouping measures filters slicer_fields : List Nat)
    (visual_type : String) (model : Option SemanticModel) :
    (String × String) × List FieldDict :=
  let dedup := uniqueMeasuresDicts heap [] measures
  let heap' := dedup.2
  (build_dax_query_body (grouping.map (fieldOfDict heap'))
      (dedup.1.map (fieldOfDict heap'))
      (filters.map (fieldOfDict heap'))
      (slicer_fields.map (fieldOfDict heap')) visual_type model,
   heap')

/-- The concrete model of the C1 counterexample: a genuine PBIP export
(typesReliable true) whose column really is string-typed. -/
def c1Model : SemanticModel :=
  { columns := [(("T", "C"), { table := "T", name := "C", data_type := "string" })],
    source := "pbip" }

/-- The role computed for a field inside classify_visual_fields: the
label classification plus the implicit-aggregation override (a field
with a truthy agg_func whose label role is grouping or other becomes a
measure). -/
def effective_role (f : VisualField) : String :=
  if aggTruthy f ∧ (classify_field f.usage = "grouping" ∨ classify_field f.usage = "other")
  then "measure" else classify_field f.usage

-- ===== Theorems =====

/-- Every usage label classifies to one of the six role strings. -/
theorem classify_field_cases (u : String) :
    classify_field u = "slicer" ∨ classify_field u = "page_filter" ∨
    classify_field u = "measure" ∨ classify_field u = "grouping" ∨
    classify_field u = "filter" ∨ classify_field u = "other" := by
  unfold classify_field
  dsimp only
  split_ifs <;> simp

/-- Claim C9 counterexample: the usage label "Visual Value" classifies to
measure, but re-deriving the role from the rendered label "measure"
yields other, so classification is not idempotent under re-derivation. -/
theorem c9_counterexample :
    ¬ (classify_field (classify_field "Visual Value") =
        classify_field "Visual Value") := by
  decide

/-- Claim C9 (amended): re-deriving a role from a rendered role label is
the identity only on slicer, filter and other; a measure or grouping
label re-derives to other, and a page_filter label re-derives to filter
(its underscore defeats the "page filter" test but still contains
"filter"). -/
theorem c9_classify_reclassification (u : String) :
    classify_field (classify_field u) =
      (if classify_field u = "slicer" ∨ classify_field u = "filter" ∨
          classify_field u = "other" then classify_field u
       else if classify_field u = "page_filter" then "filter"
       else "other") := by
  rcases classify_field_cases u with h | h | h | h | h | h <;> rw [h] <;> decide

/-- Claim C1 counterexample: a model with typesReliable true (a pbip
source) and a string-typed column still makes a Sum render as the
iterator CONVERT form, not the plain form the claim requires whenever
typesReliable is true. -/
theorem c1_counterexample :
    types_reliable c1Model = true ∧
    implicit_measure_dax "Sum" "T" "C" (some c1Model) =
      "SUMX(\x27T\x27, CONVERT(\x27T\x27[C], DOUBLE))" ∧
    implicit_measure_dax "Sum" "T" "C" (some c1Model) ≠ "SUM(\x27T\x27[C])" := by
  refine ⟨by decide, by decide, by decide⟩

/-- Claim C1 (amended): when a model is supplied, the iterator CONVERT
form is emitted exactly when the mapped aggregation is one of the
numeric-only functions and the model records the column with data type
string — independently of the typesReliable flag; in every other case,
and always without a model, the plain form is emitted. -/
theorem c1_implicit_measure_convert (agg table column : String) :
    (implicit_measure_dax agg table column none =
      daxFuncOf agg ++ "(" ++ ("\x27" ++ table ++ "\x27[" ++ column ++ "]") ++ ")") ∧
    (∀ m : SemanticModel,
      implicit_measure_dax agg table column (some m) =
        if daxFuncOf agg ∈ NUMERIC_ONLY_FUNCS ∧
            (columnsGet m table column).map (·.data_type) = some "string" then
          daxFuncOf agg ++ "X(\x27" ++ table ++ "\x27, CONVERT(" ++
            ("\x27" ++ table ++ "\x27[" ++ column ++ "]") ++ ", DOUBLE))"
        else
          daxFuncOf agg ++ "(" ++ ("\x27" ++ table ++ "\x27[" ++ column ++ "]") ++ ")") := by
  constructor
  · rfl
  · intro m
    unfold implicit_measure_dax
    by_cases hnum : daxFuncOf agg ∈ NUMERIC_ONLY_FUNCS
    · rcases hcg : columnsGet m table column with _ | ci
      · simp [hnum, hcg]
      · by_cases hdt : ci.data_type = "string"
        · simp [hnum, hcg, hdt]
        · simp [hnum, hcg, hdt]
    · simp [hnum]

/-- classify_visual_fields computes, bucket by bucket, the filter of its
input by the effective role (filter and page_filter fields share the
third bucket; other fields are dropped). -/
theorem classify_visual_fields_eq (fields : List VisualField) :
    classify_visual_fields fields =
      (fields.filter (fun f => effective_role f == "grouping"),
       fields.filter (fun f => effective_role f == "measure"),
       fields.filter (fun f => effective_role f == "filter" ||
         effective_role f == "page_filter"),
       fields.filter (fun f => effective_role f == "slicer")) := by
  induction fields with
  | nil => rfl
  | cons g rest ih =>
    simp only [classify_visual_fields, ih]
    rcases classify_field_cases g.usage with h | h | h | h | h | h <;>
      by_cases hagg : aggTruthy g = true <;>
        simp [List.filter_cons, effective_role, h, hagg]

/-- Claim C5: classification follows the ordered first-match rule list —
below the slicer and page-filter rules, a label containing
"filter (measure)" (case-insensitively) classifies as measure even when
it also contains "visual column" or any other grouping keyword; and in
classify_visual_fields a field carrying a truthy implicit-aggregation
flag whose label role is grouping or other lands in the measures
bucket, while the override leaves slicer, page_filter, filter and
measure roles in their own buckets. -/
theorem c5_classify_ordered_rules :
    (∀ u : String,
      strContains (pyLower u) "slicer" = false →
      strContains (pyLower u) "page filter" = false →
      strContains (pyLower u) "filter (measure)" = true →
      classify_field u = "measure") ∧
    (∀ (fields : List VisualField) (f : VisualField), f ∈ fields →
      aggTruthy f = true →
      (classify_field f.usage = "grouping" ∨ classify_field f.usage = "other") →
      f ∈ (classify_visual_fields fields).2.1) ∧
    (∀ (fields : List VisualField) (f : VisualField), f ∈ fields →
      classify_field f.usage = "measure" →
      f ∈ (classify_visual_fields fields).2.1) ∧
    (∀ (fields : List VisualField) (f : VisualField), f ∈ fields →
      classify_field f.usage = "slicer" →
      f ∈ (classify_visual_fields fields).2.2.2) ∧
    (∀ (fields : List VisualField) (f : VisualField), f ∈ fields →
      classify_field f.usage = "filter" →
      f ∈ (classify_visual_fields fields).2.2.1) ∧
    (∀ (fields : List VisualField) (f : VisualField), f ∈ fields →
      classify_field f.usage = "page_filter" →
      f ∈ (classify_visual_fields fields).2.2.1) ∧
    (∀ (fields : List VisualField) (f : VisualField), f ∈ fields →
      aggTruthy f = false → classify_field f.usage = "grouping" →
      f ∈ (classify_visual_fields fields).1) := by
  refine ⟨?_, ?_, ?_, ?_, ?_, ?_, ?_⟩
  · intro u h1 h2 h3
    unfold classify_field
    dsimp only
    simp [h1, h2, h3]
  · intro fields f hmem hagg hrole
    rw [classify_visual_fields_eq]
    exact List.mem_filter.2 ⟨hmem, by rcases hrole with h | h <;> simp [effective_role, hagg, h]⟩
  · intro fields f hmem hrole
    rw [classify_visual_fields_eq]
    refine List.mem_filter.2 ⟨hmem, ?_⟩
    by_cases hagg : aggTruthy f = true <;> simp [effective_role, hagg, hrole]
  · intro fields f hmem hrole
    rw [classify_visual_fields_eq]
    refine List.mem_filter.2 ⟨hmem, ?_⟩
    by_cases hagg : aggTruthy f = true <;> simp [effective_role, hagg, hrole]
  · intro fields f hmem hrole
    rw [classify_visual_fields_eq]
    refine List.mem_filter.2 ⟨hmem, ?_⟩
    by_cases hagg : aggTruthy f = true <;> simp [effective_role, hagg, hrole]
  · intro fields f hmem hrole
    rw [classify_visual_fields_eq]
    refine List.mem_filter.2 ⟨hmem, ?_⟩
    by_cases hagg : aggTruthy f = true <;> simp [effective_role, hagg, hrole]
  · intro fields f hmem hagg hrole
    rw [classify_visual_fields_eq]
    exact List.mem_filter.2 ⟨hmem, by simp [effective_role, hagg, hrole]⟩

/-- Claim C5 witness: the dependency-row label of the spec example
classifies as measure despite containing "visual column", and a
drag-and-summed grouping column lands in the measures bucket. -/
theorem c5_witness :
    classify_field "Visual Column, Filter (Measure)" = "measure" ∧
    ({ usage := "Visual Column", agg_func := some "Sum" } : VisualField) ∈
      (classify_visual_fields
        [{ usage := "Visual Column", agg_func := some "Sum" }]).2.1 :=
  ⟨c5_classify_ordered_rules.1 _ (by decide) (by decide) (by decide),
   c5_classify_ordered_rules.2.1 _ _ (by simp) (by decide) (Or.inl (by decide))⟩

/-- Claim C6: with the slicer branch not taken and no grouping fields,
build_dax_query returns the single-measure pattern with the braced
measure expression when exactly one deduplicated measure remains, the
multiple-measures pattern with a ROW construct pairing display names
with expressions when more than one remains, and the Unknown pattern
with the explanatory comment when there are no measure fields either —
in every case returning normally. -/
theorem c6_build_dax_query_patterns
    (grouping measures filters slicer_fields : List VisualField)
    (visual_type : String) (model : Option SemanticModel)
    (hslicer : ¬ (visual_type = "slicer" ∧ slicer_fields ≠ []))
    (hgroup : grouping = []) :
    (∀ m, unique_measures measures = [m] →
      build_dax_query grouping measures filters slicer_fields visual_type model =
        ("Pattern 1: Single Measure",
         "EVALUATE\n\x7b " ++ measure_expression m model ++ " \x7d")) ∧
    (∀ m1 m2 ms, unique_measures measures = m1 :: m2 :: ms →
      build_dax_query grouping measures filters slicer_fields visual_type model =
        ("Pattern 1: Multiple Measures",
         "EVALUATE\nROW (\n" ++
           String.intercalate ",\n" ((m1 :: m2 :: ms).map (fun m =>
             "    \"" ++ m.ui_name ++ "\", " ++ measure_expression m model)) ++
           "\n)")) ∧
    (measures = [] →
      build_dax_query grouping measures filters slicer_fields visual_type model =
        ("Unknown", "-- Could not determine DAX pattern for this visual")) := by
  subst hgroup
  have hb : (visual_type == "slicer" && !slicer_fields.isEmpty) = false := by
    by_cases h1 : visual_type = "slicer"
    · have h2 : slicer_fields = [] := by
        by_contra hne
        exact hslicer ⟨h1, hne⟩
      simp [h2]
    · simp [h1]
  refine ⟨?_, ?_, ?_⟩
  · intro m hm
    unfold build_dax_query
    rw [hm]
    unfold build_dax_query_body
    dsimp only
    rw [hb]
    simp
  · intro m1 m2 ms hm
    unfold build_dax_query
    rw [hm]
    unfold build_dax_query_body
    dsimp only
    rw [hb]
    simp
  · intro hm
    subst hm
    unfold build_dax_query unique_measures uniqueMeasuresGo build_dax_query_body
    dsimp only
    rw [hb]
    simp

/-- Claim C6 witness: a card with the single measure display-named
"Revenue" yields the single-measure pattern with body of the braced
measure reference, and a card with no fields at all yields Unknown with
the explanatory comment. -/
theorem c6_witness :
    build_dax_query []
        [{ ui_name := "Revenue", usage := "Visual Value", col_sm := "Revenue, X" }]
        [] [] "card" none =
      ("Pattern 1: Single Measure", "EVALUATE\n\x7b [Revenue] \x7d") ∧
    build_dax_query [] [] [] [] "card" none =
      ("Unknown", "-- Could not determine DAX pattern for this visual") :=
  ⟨((c6_build_dax_query_patterns []
      [{ ui_name := "Revenue", usage := "Visual Value", col_sm := "Revenue, X" }]
      [] [] "card" none (by simp) rfl).1
      { ui_name := "Revenue", usage := "Visual Value", col_sm := "Revenue, X",
        measure_name := "Revenue" } (by decide)).trans (by decide),
   (c6_build_dax_query_patterns [] [] [] [] "card" none (by simp) rfl).2.2 rfl⟩

/-- The deduplication loop only appends freshly allocated copies: the
resulting heap extends the input heap. -/
theorem uniqueMeasuresDicts_extends (refs : List Nat) :
    ∀ (heap : List FieldDict) (seen : List String),
      ∃ ext, (uniqueMeasuresDicts heap seen refs).2 = heap ++ ext := by
  induction refs with
  | nil => exact fun heap seen => ⟨[], by simp [uniqueMeasuresDicts]⟩
  | cons r rest ih =>
    intro heap seen
    simp only [uniqueMeasuresDicts]
    by_cases hseen : hget heap r "ui_name" ∈ seen
    · simp only [if_pos hseen]
      exact ih heap seen
    · simp only [if_neg hseen]
      obtain ⟨ext, hext⟩ := ih
        (heap ++ [dictSet (heap.getD r []) "measure_name"
          (String.mk (stripL ((splitCh ',' (hget heap r "col_sm").data).headD [])))])
        (hget heap r "ui_name" :: seen)
      exact ⟨_, by rw [hext, List.append_assoc]⟩

/-- Claim C10: build_dax_query never mutates its inputs — at Python
dict granularity, every field dict reachable from the caller before
the call is byte-for-byte the same dict in the heap afterwards; the
deduplication step writes only to fresh copies appended past the
original heap. -/
theorem c10_build_dax_query_no_mutation (heap : List FieldDict)
    (grouping measures filters slicer_fields : List Nat)
    (visual_type : String) (model : Option SemanticModel)
    (i : Nat) (hi : i < heap.length) :
    ((build_dax_query_dicts heap grouping measures filters slicer_fields
        visual_type model).2)[i]? = heap[i]? := by
  obtain ⟨ext, hext⟩ := uniqueMeasuresDicts_extends measures heap []
  unfold build_dax_query_dicts
  dsimp only
  rw [hext, List.getElem?_append]
  simp [hi]

/-- Claim C10 witness: a one-dict heap whose single field is
deduplicated as a measure keeps its original dict unchanged at index
zero. -/
theorem c10_witness :
    ((build_dax_query_dicts [[("ui_name", "Revenue"), ("col_sm", "Revenue")]]
        [] [0] [] [] "card" none).2)[0]? =
      ([[("ui_name", "Revenue"), ("col_sm", "Revenue")]] : List FieldDict)[0]? :=
  c10_build_dax_query_no_mutation _ [] [0] [] [] "card" none 0 (by decide)

/-- Claim C4: a condition dict carrying none of the recognized node
keys renders to the explicit unsupported-condition marker (and raises
nothing — the translation is total), and _extract_single_filter never
returns an expression beginning with the comment prefix, so markers are
never concatenated into a query. -/
theorem c4_unsupported_condition_marker :
    (∀ (condition : List (String × Json)) (from_entities : List Json),
      jlookup condition "Comparison" = none →
      jlookup condition "In" = none →
      jlookup condition "Not" = none →
      jlookup condition "And" = none →
      jlookup condition "Or" = none →
      jlookup condition "Between" = none →
      jlookup condition "Contains" = none →
      jlookup condition "DoesNotContain" = none →
      jlookup condition "StartsWith" = none →
      jlookup condition "DoesNotStartWith" = none →
      jlookup condition "IsBlank" = none →
      jlookup condition "IsNotBlank" = none →
      condition_to_dax condition from_entities = "-- unsupported condition type") ∧
    (∀ (filter_obj : List (String × Json)) (e : String),
      e ∈ extract_single_filter filter_obj → pyStartswith e "--" = false) := by
  constructor
  · intro condition from_entities h1 h2 h3 h4 h5 h6 h7 h8 h9 h10 h11 h12
    unfold condition_to_dax condition_to_dax_inner
    simp [h1, h2, h3, h4, h5, h6, h7, h8, h9, h10, h11, h12]
  · intro filter_obj e he
    unfold extract_single_filter at he
    rcases hq : jlookup filter_obj "filter" with _ | qf
    · rw [hq] at he
      simp at he
    · rw [hq] at he
      dsimp only at he
      by_cases ht : jTruthy qf = true
      · simp only [ht, Bool.not_true, Bool.false_eq_true, if_false] at he
        obtain ⟨w, _, hsome⟩ := List.mem_filterMap.1 he
        split_ifs at hsome with hc hd
        · rw [Option.some_inj] at hsome
          subst hsome
          simpa using hd.2
      · rw [Bool.not_eq_true] at ht
        simp [ht] at he

/-- Claim C4 witness: a dict with only an unrecognized key renders to
the marker, and a rendered expression that _extract_single_filter does
return is comment-free. -/
theorem c4_witness :
    condition_to_dax [("Bogus", Json.null)] [] = "-- unsupported condition type" ∧
    pyStartswith "ISBLANK(\x27T\x27[C])" "--" = false :=
  ⟨c4_unsupported_condition_marker.1 [("Bogus", Json.null)] []
    rfl rfl rfl rfl rfl rfl rfl rfl rfl rfl rfl rfl,
   c4_unsupported_condition_marker.2
    [("filter", Json.obj [("From", Json.arr [Json.obj [("Name", Json.str "t"),
        ("Entity", Json.str "T")]]),
      ("Where", Json.arr [Json.obj [("Condition", Json.obj [("IsBlank",
        Json.obj [("Expression", Json.obj [("Column", Json.obj
          [("Property", Json.str "C"),
           ("Expression", Json.obj [("SourceRef", Json.obj
             [("Source", Json.str "t")])])])])])])]])])]
    "ISBLANK(\x27T\x27[C])" (by decide)⟩

/-- dropWhile is the identity when the head fails the predicate. -/
theorem dropWhile_eq_self_of_head (p : Char → Bool) (l : List Char)
    (h : ∀ c, l.head? = some c → p c = false) : l.dropWhile p = l := by
  cases l with
  | nil => rfl
  | cons c t => rw [List.dropWhile_cons, h c rfl]; simp

/-- lstrip is the identity when the first character is not whitespace. -/
theorem lstripL_eq_self (l : List Char)
    (h : ∀ c, l.head? = some c → pyIsSpace c = false) : lstripL l = l :=
  dropWhile_eq_self_of_head _ _ h

/-- rstrip is the identity when the last character is not whitespace. -/
theorem rstripL_eq_self (l : List Char)
    (h : ∀ c, l.getLast? = some c → pyIsSpace c = false) : rstripL l = l := by
  unfold rstripL
  rw [dropWhile_eq_self_of_head _ _
    (fun c hc => h c (by rwa [List.head?_reverse] at hc))]
  exact List.reverse_reverse l

/-- strip is the identity when both end characters are not whitespace. -/
theorem stripL_eq_self (l : List Char)
    (h1 : ∀ c, l.head? = some c → pyIsSpace c = false)
    (h2 : ∀ c, l.getLast? = some c → pyIsSpace c = false) : stripL l = l := by
  unfold stripL
  rw [lstripL_eq_self l h1, rstripL_eq_self l h2]

/-- rstrip distributes over an append whose left part ends in a
non-whitespace character. -/
theorem rstripL_append (l1 l2 : List Char)
    (h : ∀ c, l1.getLast? = some c → pyIsSpace c = false) :
    rstripL (l1 ++ l2) = l1 ++ rstripL l2 := by
  unfold rstripL
  rw [List.reverse_append, List.dropWhile_append]
  by_cases he : (l2.reverse.dropWhile pyIsSpace).isEmpty = true
  · rw [if_pos he]
    rw [dropWhile_eq_self_of_head _ _
      (fun c hc => h c (by rwa [List.head?_reverse] at hc))]
    rw [List.reverse_reverse]
    have : l2.reverse.dropWhile pyIsSpace = [] := by
      rwa [List.isEmpty_iff] at he
    rw [this]
    simp
  · rw [if_neg he]
    rw [List.reverse_append, List.reverse_reverse]

/-- A lowered string differs from a target when the mapped head chars
already differ. -/
theorem pyLower_ne_of_head (s t : String) (c c' : Char) (rest rest' : List Char)
    (hs : s.data = c :: rest) (ht : t.data = c' :: rest')
    (hne : c.toLower ≠ c') : pyLower s ≠ t := by
  intro h
  have hd : s.data.map Char.toLower = t.data := congrArg String.data h
  rw [hs, ht, List.map_cons] at hd
  exact hne (List.cons.injEq _ _ _ _ ▸ hd).1

/-- The datetime regex fails when the first character is not the
letter d. -/
theorem matchDatetime_none_of_head (c : Char) (t : List Char) (hc : c ≠ 'd') :
    matchDatetime (c :: t) = none := by
  unfold matchDatetime
  rw [if_neg]
  intro h
  have h9 : ((c :: t).take 9).head? = some c := rfl
  rw [h] at h9
  exact hc (by simpa using h9.symm)

/-- A one-character suffix test succeeds exactly at the last
character. -/
theorem isSuffixOf_singleton (a : Char) (l : List Char)
    (h : l.getLast? = some a) : [a].isSuffixOf l = true := by
  obtain ⟨t, ht⟩ : ∃ t, l.reverse = a :: t := by
    cases hr : l.reverse with
    | nil =>
      rw [← List.head?_reverse, hr] at h
      cases h
    | cons c t' =>
      rw [← List.head?_reverse, hr] at h
      have hca : c = a := by simpa using h
      exact ⟨t', by rw [hca]⟩
  rw [List.isSuffixOf, ht]
  simp [List.isPrefixOf]

/-- Char.toLower fixes decimal digits. -/
theorem toLower_of_isDigit (c : Char) (h : c.isDigit = true) : c.toLower = c := by
  unfold Char.toLower
  rw [if_neg]
  unfold Char.isDigit at h
  simp only [Bool.and_eq_true, decide_eq_true_eq] at h
  have h1 : c.val.toNat ≤ 57 := h.2
  intro hc
  simp only [Char.toNat] at hc
  omega

/-- A digit is not whitespace and is distinct from the sentinel
characters of the literal grammar. -/
theorem isDigit_facts (c : Char) (h : c.isDigit = true) :
    pyIsSpace c = false ∧ c.toLower ≠ 'n' ∧ c.toLower ≠ 't' ∧ c.toLower ≠ 'f' ∧
    c ≠ 'd' ∧ c ≠ '\x27' ∧ c ≠ '-' := by
  rw [toLower_of_isDigit c h]
  refine ⟨?_, ?_, ?_, ?_, ?_, ?_, ?_⟩
  · simp only [pyIsSpace, Bool.or_eq_false_iff, decide_eq_false_iff_not]
    refine ⟨⟨⟨⟨⟨?_, ?_⟩, ?_⟩, ?_⟩, ?_⟩, ?_⟩ <;>
      intro he <;> subst he <;> exact absurd h (by decide)
  all_goals intro he <;> subst he <;> exact absurd h (by decide)

/-- splitCh on a separator-free list is a single segment. -/
theorem splitCh_of_not_mem (sep : Char) (l : List Char) (h : sep ∉ l) :
    splitCh sep l = [l] := by
  induction l with
  | nil => rfl
  | cons c t ih =>
    have h1 : ¬ (c = sep) := fun he => h (he ▸ List.mem_cons_self c t)
    have h2 : sep ∉ t := fun ht => h (List.mem_cons_of_mem _ ht)
    simp only [splitCh, if_neg h1, ih h2]

/-- splitCh around a single separator occurrence. -/
theorem splitCh_sep_append (sep : Char) (l1 l2 : List Char) (h1 : sep ∉ l1) :
    splitCh sep (l1 ++ sep :: l2) = l1 :: splitCh sep l2 := by
  induction l1 with
  | nil => simp [splitCh]
  | cons c t ih =>
    have hc : ¬ (c = sep) := fun he => h1 (he ▸ List.mem_cons_self c t)
    have ht : sep ∉ t := fun hm => h1 (List.mem_cons_of_mem _ hm)
    rw [List.cons_append]
    simp only [splitCh, if_neg hc, ih ht]

/-- The long-integer regex accepts digit strings with the L suffix,
optionally signed. -/
theorem matchesLongRe_digits (ds : List Char) (hne : ds ≠ [])
    (hd : ds.all Char.isDigit = true) :
    matchesLongRe (ds ++ ['L']) = true ∧ matchesLongRe ('-' :: ds ++ ['L']) = true := by
  obtain ⟨c, t, rfl⟩ : ∃ c t, ds = c :: t := by
    cases ds with
    | nil => exact absurd rfl hne
    | cons c t => exact ⟨c, t, rfl⟩
  have hcd : c.isDigit = true := by
    rw [List.all_cons, Bool.and_eq_true] at hd
    exact hd.1
  have hcore1 : longCore (c :: t ++ ['L']) = (c :: t) ++ ['L'] := by
    unfold longCore
    rw [if_neg]
    intro he
    have : c = '-' := by simpa using he
    exact (isDigit_facts c hcd).2.2.2.2.2.2 this
  have hcore2 : longCore ('-' :: c :: t ++ ['L']) = (c :: t) ++ ['L'] := by
    unfold longCore
    rw [if_pos (by rfl : ('-' :: c :: t ++ ['L']).head? = some '-')]
    rfl
  constructor
  · unfold matchesLongRe
    rw [hcore1, List.getLast?_concat, if_pos rfl, List.dropLast_concat]
    simp [hd]
  · unfold matchesLongRe
    rw [hcore2, List.getLast?_concat, if_pos rfl, List.dropLast_concat]
    simp [hd]

/-- The long-integer regex rejects any string not ending in L. -/
theorem matchesLongRe_concat_ne (l : List Char) (a : Char) (ha : a ≠ 'L') :
    matchesLongRe (l ++ [a]) = false := by
  unfold matchesLongRe longCore
  by_cases hh : (l ++ [a]).head? = some '-'
  · rw [if_pos hh]
    by_cases hl : (l ++ [a]).tail.getLast? = some 'L'
    · exfalso
      cases l with
      | nil => simp at hl
      | cons c t =>
        rw [List.cons_append, List.tail_cons, List.getLast?_concat] at hl
        exact ha (by simpa using hl)
    · rw [if_neg hl]
  · rw [if_neg hh, List.getLast?_concat]
    rw [if_neg (by simpa using ha)]

/-- The D-decimal regex rejects any string not ending in D. -/
theorem matchesDecDRe_concat_ne (l : List Char) (a : Char) (ha : a ≠ 'D') :
    matchesDecDRe (l ++ [a]) = false := by
  unfold matchesDecDRe
  rw [List.getLast?_concat]
  rw [if_neg (by simpa using ha)]

/-- The decimal-core regex accepts unsigned digit strings and
digit-dot-digit strings. -/
theorem matchesDecCore_digits (ds : List Char) (hne : ds ≠ [])
    (hd : ds.all Char.isDigit = true) :
    matchesDecCore ds = true ∧
    (∀ fs : List Char, fs ≠ [] → fs.all Char.isDigit = true →
      matchesDecCore (ds ++ '.' :: fs) = true) := by
  obtain ⟨c, t, rfl⟩ : ∃ c t, ds = c :: t := by
    cases ds with
    | nil => exact absurd rfl hne
    | cons c t => exact ⟨c, t, rfl⟩
  have hcd : c.isDigit = true := by
    rw [List.all_cons, Bool.and_eq_true] at hd
    exact hd.1
  have hnodot : '.' ∉ c :: t := by
    intro hm
    have : ∀ x ∈ c :: t, x.isDigit = true := List.all_eq_true.1 hd
    exact absurd (this '.' hm) (by decide)
  have hcore : ∀ l2 : List Char, longCore (c :: l2) = c :: l2 := by
    intro l2
    unfold longCore
    rw [if_neg]
    intro he
    have : c = '-' := by simpa using he
    exact (isDigit_facts c hcd).2.2.2.2.2.2 this
  constructor
  · unfold matchesDecCore
    rw [hcore, splitCh_of_not_mem _ _ hnodot]
    simp [hd]
  · intro fs hfne hfd
    have hfnodot : '.' ∉ fs := by
      intro hm
      have : ∀ x ∈ fs, x.isDigit = true := List.all_eq_true.1 hfd
      exact absurd (this '.' hm) (by decide)
    unfold matchesDecCore
    rw [show c :: t ++ '.' :: fs = c :: (t ++ '.' :: fs) from rfl, hcore,
      show c :: (t ++ '.' :: fs) = (c :: t) ++ '.' :: fs from rfl,
      splitCh_sep_append _ _ _ hnodot, splitCh_of_not_mem _ _ hfnodot]
    simp [hd, hfd, hne, hfne]

/-- A quoted literal becomes a double-quoted string with embedded
double quotes doubled, for every inner text. -/
theorem parse_literal_quoted (inner : String) :
    parse_literal (some ("\x27" ++ inner ++ "\x27")) =
      "\"" ++ String.mk (escapeQuotes inner.data) ++ "\"" := by
  have hdata : ("\x27" ++ inner ++ "\x27").data = '\x27' :: (inner.data ++ ['\x27']) := by
    rw [String.data_append, String.data_append]
    rfl
  have hstrip : pyStrip ("\x27" ++ inner ++ "\x27") = "\x27" ++ inner ++ "\x27" := by
    unfold pyStrip
    rw [hdata, stripL_eq_self]
    · exact (congrArg String.mk hdata).symm
    · intro c hc
      simp only [List.head?_cons, Option.some.injEq] at hc
      subst hc
      decide
    · intro c hc
      rw [show '\x27' :: (inner.data ++ ['\x27']) = ('\x27' :: inner.data) ++ ['\x27']
        from rfl, List.getLast?_concat] at hc
      simp only [Option.some.injEq] at hc
      subst hc
      decide
  have hnull : pyLower ("\x27" ++ inner ++ "\x27") ≠ "null" :=
    pyLower_ne_of_head _ "null" '\x27' 'n' _ _ hdata rfl (by decide)
  have htrue : pyLower ("\x27" ++ inner ++ "\x27") ≠ "true" :=
    pyLower_ne_of_head _ "true" '\x27' 't' _ _ hdata rfl (by decide)
  have hfalse : pyLower ("\x27" ++ inner ++ "\x27") ≠ "false" :=
    pyLower_ne_of_head _ "false" '\x27' 'f' _ _ hdata rfl (by decide)
  have hdt : matchDatetime ("\x27" ++ inner ++ "\x27").data = none := by
    rw [hdata]
    exact matchDatetime_none_of_head _ _ (by decide)
  have h1 : pyStartswith ("\x27" ++ inner ++ "\x27") "\x27" = true := by
    unfold pyStartswith
    rw [hdata]
    simp [List.isPrefixOf]
  have h2 : pyEndswith ("\x27" ++ inner ++ "\x27") "\x27" = true := by
    unfold pyEndswith
    rw [hdata]
    exact isSuffixOf_singleton _ _ (by
      rw [show '\x27' :: (inner.data ++ ['\x27']) = ('\x27' :: inner.data) ++ ['\x27']
        from rfl, List.getLast?_concat])
  have h3 : ("\x27" ++ inner ++ "\x27").data.length ≥ 2 := by
    rw [hdata]
    simp
  simp only [parse_literal]
  rw [hstrip, if_neg hnull, if_neg (by simp [htrue, hfalse]), hdt]
  rw [if_pos (by simp [h1, h2, h3])]
  rw [hdata]
  rw [show ('\x27' :: (inner.data ++ ['\x27'])).drop 1 = inner.data ++ ['\x27'] from rfl,
    List.dropLast_concat]

/-- A datetime literal with an ISO date prefix becomes a DATE call on
the int() of its year, month and day groups, whatever follows the T. -/
theorem parse_literal_datetime (y1 y2 y3 y4 m1 m2 d1 d2 : Char) (tail : String)
    (hd : [y1, y2, y3, y4, m1, m2, d1, d2].all Char.isDigit = true) :
    parse_literal (some (String.mk ("datetime\x27".data ++
        ([y1, y2, y3, y4, '-', m1, m2, '-', d1, d2, 'T'] ++ tail.data)))) =
      "DATE(" ++ toString (digitsVal [y1, y2, y3, y4]) ++ ", " ++
        toString (digitsVal [m1, m2]) ++ ", " ++ toString (digitsVal [d1, d2]) ++ ")" := by
  have hdigit : ∀ x ∈ [y1, y2, y3, y4, m1, m2, d1, d2], x.isDigit = true :=
    List.all_eq_true.1 hd
  have hMlast : ("datetime\x27".data ++
      [y1, y2, y3, y4, '-', m1, m2, '-', d1, d2, 'T']).getLast? = some 'T' := by
    rw [show "datetime\x27".data ++ [y1, y2, y3, y4, '-', m1, m2, '-', d1, d2, 'T'] =
      ("datetime\x27".data ++ [y1, y2, y3, y4, '-', m1, m2, '-', d1, d2]) ++ ['T']
      from rfl, List.getLast?_concat]
  have hPyStrip : pyStrip (String.mk ("datetime\x27".data ++
      ([y1, y2, y3, y4, '-', m1, m2, '-', d1, d2, 'T'] ++ tail.data))) =
      String.mk (("datetime\x27".data ++ [y1, y2, y3, y4, '-', m1, m2, '-', d1, d2, 'T']) ++
        rstripL tail.data) := by
    unfold pyStrip stripL
    apply congrArg String.mk
    rw [show (String.mk ("datetime\x27".data ++
        ([y1, y2, y3, y4, '-', m1, m2, '-', d1, d2, 'T'] ++ tail.data))).data =
      ("datetime\x27".data ++ [y1, y2, y3, y4, '-', m1, m2, '-', d1, d2, 'T']) ++ tail.data
      from rfl]
    rw [lstripL_eq_self]
    · exact rstripL_append _ _ (fun c hc => by
        rw [hMlast] at hc
        simp only [Option.some.injEq] at hc
        subst hc
        decide)
    · intro c hc
      have h0 : (("datetime\x27".data ++ [y1, y2, y3, y4, '-', m1, m2, '-', d1, d2, 'T']) ++
          tail.data).head? = some 'd' := rfl
      rw [h0, Option.some.injEq] at hc
      subst hc
      decide
  have hnull : pyLower (String.mk (("datetime\x27".data ++
      [y1, y2, y3, y4, '-', m1, m2, '-', d1, d2, 'T']) ++ rstripL tail.data)) ≠ "null" :=
    pyLower_ne_of_head _ "null" 'd' 'n' _ _ rfl rfl (by decide)
  have htrue : pyLower (String.mk (("datetime\x27".data ++
      [y1, y2, y3, y4, '-', m1, m2, '-', d1, d2, 'T']) ++ rstripL tail.data)) ≠ "true" :=
    pyLower_ne_of_head _ "true" 'd' 't' _ _ rfl rfl (by decide)
  have hfalse : pyLower (String.mk (("datetime\x27".data ++
      [y1, y2, y3, y4, '-', m1, m2, '-', d1, d2, 'T']) ++ rstripL tail.data)) ≠ "false" :=
    pyLower_ne_of_head _ "false" 'd' 'f' _ _ rfl rfl (by decide)
  have hmatch : matchDatetime (String.mk (("datetime\x27".data ++
      [y1, y2, y3, y4, '-', m1, m2, '-', d1, d2, 'T']) ++ rstripL tail.data)).data =
      some (digitsVal [y1, y2, y3, y4], digitsVal [m1, m2], digitsVal [d1, d2]) := by
    show matchDatetime (("datetime\x27".data ++
      [y1, y2, y3, y4, '-', m1, m2, '-', d1, d2, 'T']) ++ rstripL tail.data) = _
    have htake : ((("datetime\x27".data ++
        [y1, y2, y3, y4, '-', m1, m2, '-', d1, d2, 'T']) ++ rstripL tail.data)).take 9 =
        "datetime\x27".data := by
      rw [show ("datetime\x27".data ++ [y1, y2, y3, y4, '-', m1, m2, '-', d1, d2, 'T']) ++
          rstripL tail.data =
        "datetime\x27".data ++ ([y1, y2, y3, y4, '-', m1, m2, '-', d1, d2, 'T'] ++
          rstripL tail.data) from rfl]
      rw [show (9 : Nat) = ("datetime\x27".data).length from rfl]
      exact List.take_left _ _
    have hdrop : ((("datetime\x27".data ++
        [y1, y2, y3, y4, '-', m1, m2, '-', d1, d2, 'T']) ++ rstripL tail.data)).drop 9 =
        y1 :: y2 :: y3 :: y4 :: '-' :: m1 :: m2 :: '-' :: d1 :: d2 :: 'T' ::
          rstripL tail.data := by
      rw [show ("datetime\x27".data ++ [y1, y2, y3, y4, '-', m1, m2, '-', d1, d2, 'T']) ++
          rstripL tail.data =
        "datetime\x27".data ++ ([y1, y2, y3, y4, '-', m1, m2, '-', d1, d2, 'T'] ++
          rstripL tail.data) from rfl]
      rw [show (9 : Nat) = ("datetime\x27".data).length from rfl]
      rw [List.drop_left]
      rfl
    unfold matchDatetime
    rw [if_pos htake, hdrop]
    dsimp only
    rw [if_pos ⟨hd, rfl, rfl, rfl⟩]
  simp only [parse_literal]
  rw [hPyStrip, if_neg hnull, if_neg (by
    simp only [Bool.or_eq_true, decide_eq_true_eq]
    rintro (h | h)
    exacts [htrue h, hfalse h]), hmatch]

/-- A non-negative long-suffixed integer maps to the bare digit
string. -/
theorem parse_literal_long_nonneg (ds : List Char) (hne : ds ≠ [])
    (hd : ds.all Char.isDigit = true) :
    parse_literal (some (String.mk (ds ++ ['L']))) = String.mk ds := by
  obtain ⟨c, t, rfl⟩ : ∃ c t, ds = c :: t := by
    cases ds with
    | nil => exact absurd rfl hne
    | cons c t => exact ⟨c, t, rfl⟩
  have hcd : c.isDigit = true := by
    rw [List.all_cons, Bool.and_eq_true] at hd
    exact hd.1
  have hf := isDigit_facts c hcd
  have hstrip : pyStrip (String.mk (c :: t ++ ['L'])) = String.mk (c :: t ++ ['L']) := by
    unfold pyStrip
    apply congrArg String.mk
    show stripL (c :: t ++ ['L']) = c :: t ++ ['L']
    apply stripL_eq_self
    · intro x hx
      have hhd : (c :: t ++ ['L']).head? = some c := rfl
      rw [hhd, Option.some.injEq] at hx
      subst hx
      exact hf.1
    · intro x hx
      rw [show c :: t ++ ['L'] = (c :: t) ++ ['L'] from rfl, List.getLast?_concat] at hx
      simp only [Option.some.injEq] at hx
      subst hx
      decide
  have hnull : pyLower (String.mk (c :: t ++ ['L'])) ≠ "null" :=
    pyLower_ne_of_head _ "null" c 'n' _ _ rfl rfl hf.2.1
  have htrue : pyLower (String.mk (c :: t ++ ['L'])) ≠ "true" :=
    pyLower_ne_of_head _ "true" c 't' _ _ rfl rfl hf.2.2.1
  have hfalse : pyLower (String.mk (c :: t ++ ['L'])) ≠ "false" :=
    pyLower_ne_of_head _ "false" c 'f' _ _ rfl rfl hf.2.2.2.1
  have hdt : matchDatetime (String.mk (c :: t ++ ['L'])).data = none := by
    show matchDatetime (c :: (t ++ ['L'])) = none
    exact matchDatetime_none_of_head _ _ hf.2.2.2.2.1
  have hq : pyStartswith (String.mk (c :: t ++ ['L'])) "\x27" = false := by
    unfold pyStartswith
    have hbeq : ('\x27' == c) = false := by
      rw [beq_eq_false_iff_ne]
      exact fun h => hf.2.2.2.2.2.1 h.symm
    show ['\x27'].isPrefixOf (c :: (t ++ ['L'])) = false
    simp [List.isPrefixOf, hbeq]
  have hlong : matchesLongRe (String.mk (c :: t ++ ['L'])).data = true := by
    show matchesLongRe ((c :: t) ++ ['L']) = true
    exact (matchesLongRe_digits (c :: t) hne hd).1
  have hnum : (String.mk (c :: t ++ ['L'])).data.dropLast = c :: t := by
    show ((c :: t) ++ ['L']).dropLast = c :: t
    exact List.dropLast_concat
  have hdash : pyStartswith (String.mk (c :: t)) "-" = false := by
    unfold pyStartswith
    have hbeq : ('-' == c) = false := by
      rw [beq_eq_false_iff_ne]
      exact fun h => hf.2.2.2.2.2.2 h.symm
    show ['-'].isPrefixOf (c :: t) = false
    simp [List.isPrefixOf, hbeq]
  simp only [parse_literal]
  rw [hstrip, if_neg hnull, if_neg (by
    simp only [Bool.or_eq_true, decide_eq_true_eq]
    rintro (h | h)
    exacts [htrue h, hfalse h]), hdt]
  rw [if_neg (by
    intro hcond
    rw [Bool.and_eq_true, Bool.and_eq_true] at hcond
    rw [hq] at hcond
    exact Bool.false_ne_true hcond.1.1), hlong]
  simp only [if_true]
  rw [hnum, if_neg (by rw [hdash]; exact Bool.false_ne_true)]

/-- A negative long-suffixed integer maps to the bare negative integer
followed by the cannot-resolve-statically comment. -/
theorem parse_literal_long_neg (ds : List Char) (hne : ds ≠ [])
    (hd : ds.all Char.isDigit = true) :
    parse_literal (some (String.mk ('-' :: ds ++ ['L']))) =
      String.mk ('-' :: ds) ++ " /* relative offset — cannot resolve statically */" := by
  obtain ⟨c, t, rfl⟩ : ∃ c t, ds = c :: t := by
    cases ds with
    | nil => exact absurd rfl hne
    | cons c t => exact ⟨c, t, rfl⟩
  have hstrip : pyStrip (String.mk ('-' :: c :: t ++ ['L'])) =
      String.mk ('-' :: c :: t ++ ['L']) := by
    unfold pyStrip
    apply congrArg String.mk
    show stripL ('-' :: c :: t ++ ['L']) = '-' :: c :: t ++ ['L']
    apply stripL_eq_self
    · intro x hx
      have hhd : ('-' :: c :: t ++ ['L']).head? = some '-' := rfl
      rw [hhd, Option.some.injEq] at hx
      subst hx
      decide
    · intro x hx
      rw [show '-' :: c :: t ++ ['L'] = ('-' :: c :: t) ++ ['L'] from rfl,
        List.getLast?_concat] at hx
      rw [Option.some.injEq] at hx
      subst hx
      decide
  have hnull : pyLower (String.mk ('-' :: c :: t ++ ['L'])) ≠ "null" :=
    pyLower_ne_of_head _ "null" '-' 'n' _ _ rfl rfl (by decide)
  have htrue : pyLower (String.mk ('-' :: c :: t ++ ['L'])) ≠ "true" :=
    pyLower_ne_of_head _ "true" '-' 't' _ _ rfl rfl (by decide)
  have hfalse : pyLower (String.mk ('-' :: c :: t ++ ['L'])) ≠ "false" :=
    pyLower_ne_of_head _ "false" '-' 'f' _ _ rfl rfl (by decide)
  have hdt : matchDatetime (String.mk ('-' :: c :: t ++ ['L'])).data = none := by
    show matchDatetime ('-' :: (c :: t ++ ['L'])) = none
    exact matchDatetime_none_of_head _ _ (by decide)
  have hq : pyStartswith (String.mk ('-' :: c :: t ++ ['L'])) "\x27" = false := by
    unfold pyStartswith
    show ['\x27'].isPrefixOf ('-' :: (c :: t ++ ['L'])) = false
    simp [List.isPrefixOf]
  have hlong : matchesLongRe (String.mk ('-' :: c :: t ++ ['L'])).data = true := by
    show matchesLongRe ('-' :: (c :: t) ++ ['L']) = true
    exact (matchesLongRe_digits (c :: t) hne hd).2
  have hnum : (String.mk ('-' :: c :: t ++ ['L'])).data.dropLast = '-' :: c :: t := by
    show (('-' :: c :: t) ++ ['L']).dropLast = '-' :: c :: t
    exact List.dropLast_concat
  have hdash : pyStartswith (String.mk ('-' :: c :: t)) "-" = true := by
    unfold pyStartswith
    show ['-'].isPrefixOf ('-' :: (c :: t)) = true
    simp [List.isPrefixOf]
  simp only [parse_literal]
  rw [hstrip, if_neg hnull, if_neg (by
    simp only [Bool.or_eq_true, decide_eq_true_eq]
    rintro (h | h)
    exacts [htrue h, hfalse h]), hdt]
  rw [if_neg (by
    intro hcond
    rw [Bool.and_eq_true, Bool.and_eq_true] at hcond
    rw [hq] at hcond
    exact Bool.false_ne_true hcond.1.1), hlong]
  simp only [if_true]
  rw [hnum, if_pos (by rw [hdash])]

/-- An unsigned D-suffixed integer maps to the bare digit string. -/
theorem parse_literal_decD_int (ds : List Char) (hne : ds ≠ [])
    (hd : ds.all Char.isDigit = true) :
    parse_literal (some (String.mk (ds ++ ['D']))) = String.mk ds := by
  obtain ⟨c, t, rfl⟩ : ∃ c t, ds = c :: t := by
    cases ds with
    | nil => exact absurd rfl hne
    | cons c t => exact ⟨c, t, rfl⟩
  have hcd : c.isDigit = true := by
    rw [List.all_cons, Bool.and_eq_true] at hd
    exact hd.1
  have hf := isDigit_facts c hcd
  have hstrip : pyStrip (String.mk (c :: t ++ ['D'])) = String.mk (c :: t ++ ['D']) := by
    unfold pyStrip
    apply congrArg String.mk
    show stripL (c :: t ++ ['D']) = c :: t ++ ['D']
    apply stripL_eq_self
    · intro x hx
      have hhd : (c :: t ++ ['D']).head? = some c := rfl
      rw [hhd, Option.some.injEq] at hx
      subst hx
      exact hf.1
    · intro x hx
      rw [show c :: t ++ ['D'] = (c :: t) ++ ['D'] from rfl, List.getLast?_concat] at hx
      rw [Option.some.injEq] at hx
      subst hx
      decide
  have hnull : pyLower (String.mk (c :: t ++ ['D'])) ≠ "null" :=
    pyLower_ne_of_head _ "null" c 'n' _ _ rfl rfl hf.2.1
  have htrue : pyLower (String.mk (c :: t ++ ['D'])) ≠ "true" :=
    pyLower_ne_of_head _ "true" c 't' _ _ rfl rfl hf.2.2.1
  have hfalse : pyLower (String.mk (c :: t ++ ['D'])) ≠ "false" :=
    pyLower_ne_of_head _ "false" c 'f' _ _ rfl rfl hf.2.2.2.1
  have hdt : matchDatetime (String.mk (c :: t ++ ['D'])).data = none := by
    show matchDatetime (c :: (t ++ ['D'])) = none
    exact matchDatetime_none_of_head _ _ hf.2.2.2.2.1
  have hq : pyStartswith (String.mk (c :: t ++ ['D'])) "\x27" = false := by
    unfold pyStartswith
    have hbeq : ('\x27' == c) = false := by
      rw [beq_eq_false_iff_ne]
      exact fun h => hf.2.2.2.2.2.1 h.symm
    show ['\x27'].isPrefixOf (c :: (t ++ ['D'])) = false
    simp [List.isPrefixOf, hbeq]
  have hlong : matchesLongRe (String.mk (c :: t ++ ['D'])).data = false := by
    show matchesLongRe ((c :: t) ++ ['D']) = false
    exact matchesLongRe_concat_ne _ _ (by decide)
  have hdecd : matchesDecDRe (String.mk (c :: t ++ ['D'])).data = true := by
    show matchesDecDRe ((c :: t) ++ ['D']) = true
    unfold matchesDecDRe
    rw [List.getLast?_concat, if_pos rfl, List.dropLast_concat]
    exact (matchesDecCore_digits (c :: t) hne hd).1
  have hnum : (String.mk (c :: t ++ ['D'])).data.dropLast = c :: t := by
    show ((c :: t) ++ ['D']).dropLast = c :: t
    exact List.dropLast_concat
  simp only [parse_literal]
  rw [hstrip, if_neg hnull, if_neg (by
    simp only [Bool.or_eq_true, decide_eq_true_eq]
    rintro (h | h)
    exacts [htrue h, hfalse h]), hdt]
  rw [if_neg (by
    intro hcond
    rw [Bool.and_eq_true, Bool.and_eq_true] at hcond
    rw [hq] at hcond
    exact Bool.false_ne_true hcond.1.1)]
  rw [hlong]
  simp only [Bool.false_eq_true, if_false]
  rw [hdecd]
  simp only [if_true]
  rw [hnum]

/-- A D-suffixed decimal fraction maps to the bare decimal. -/
theorem parse_literal_decD_frac (ds fs : List Char) (hne : ds ≠ []) (hfne : fs ≠ [])
    (hd : ds.all Char.isDigit = true) (hfd : fs.all Char.isDigit = true) :
    parse_literal (some (String.mk ((ds ++ '.' :: fs) ++ ['D']))) =
      String.mk (ds ++ '.' :: fs) := by
  obtain ⟨c, t, rfl⟩ : ∃ c t, ds = c :: t := by
    cases ds with
    | nil => exact absurd rfl hne
    | cons c t => exact ⟨c, t, rfl⟩
  have hcd : c.isDigit = true := by
    rw [List.all_cons, Bool.and_eq_true] at hd
    exact hd.1
  have hf := isDigit_facts c hcd
  have hstrip : pyStrip (String.mk ((c :: t ++ '.' :: fs) ++ ['D'])) =
      String.mk ((c :: t ++ '.' :: fs) ++ ['D']) := by
    unfold pyStrip
    apply congrArg String.mk
    show stripL ((c :: t ++ '.' :: fs) ++ ['D']) = (c :: t ++ '.' :: fs) ++ ['D']
    apply stripL_eq_self
    · intro x hx
      have hhd : ((c :: t ++ '.' :: fs) ++ ['D']).head? = some c := rfl
      rw [hhd, Option.some.injEq] at hx
      subst hx
      exact hf.1
    · intro x hx
      rw [List.getLast?_concat] at hx
      rw [Option.some.injEq] at hx
      subst hx
      decide
  have hnull : pyLower (String.mk ((c :: t ++ '.' :: fs) ++ ['D'])) ≠ "null" :=
    pyLower_ne_of_head _ "null" c 'n' _ _ rfl rfl hf.2.1
  have htrue : pyLower (String.mk ((c :: t ++ '.' :: fs) ++ ['D'])) ≠ "true" :=
    pyLower_ne_of_head _ "true" c 't' _ _ rfl rfl hf.2.2.1
  have hfalse : pyLower (String.mk ((c :: t ++ '.' :: fs) ++ ['D'])) ≠ "false" :=
    pyLower_ne_of_head _ "false" c 'f' _ _ rfl rfl hf.2.2.2.1
  have hdt : matchDatetime (String.mk ((c :: t ++ '.' :: fs) ++ ['D'])).data = none := by
    show matchDatetime (c :: ((t ++ '.' :: fs) ++ ['D'])) = none
    exact matchDatetime_none_of_head _ _ hf.2.2.2.2.1
  have hq : pyStartswith (String.mk ((c :: t ++ '.' :: fs) ++ ['D'])) "\x27" = false := by
    unfold pyStartswith
    have hbeq : ('\x27' == c) = false := by
      rw [beq_eq_false_iff_ne]
      exact fun h => hf.2.2.2.2.2.1 h.symm
    show ['\x27'].isPrefixOf (c :: ((t ++ '.' :: fs) ++ ['D'])) = false
    simp [List.isPrefixOf, hbeq]
  have hlong : matchesLongRe (String.mk ((c :: t ++ '.' :: fs) ++ ['D'])).data = false := by
    show matchesLongRe ((c :: t ++ '.' :: fs) ++ ['D']) = false
    exact matchesLongRe_concat_ne _ _ (by decide)
  have hdecd : matchesDecDRe (String.mk ((c :: t ++ '.' :: fs) ++ ['D'])).data = true := by
    show matchesDecDRe ((c :: t ++ '.' :: fs) ++ ['D']) = true
    unfold matchesDecDRe
    rw [List.getLast?_concat, if_pos rfl, List.dropLast_concat]
    exact (matchesDecCore_digits (c :: t) hne hd).2 fs hfne hfd
  have hnum : (String.mk ((c :: t ++ '.' :: fs) ++ ['D'])).data.dropLast =
      c :: t ++ '.' :: fs := by
    show ((c :: t ++ '.' :: fs) ++ ['D']).dropLast = c :: t ++ '.' :: fs
    exact List.dropLast_concat
  simp only [parse_literal]
  rw [hstrip, if_neg hnull, if_neg (by
    simp only [Bool.or_eq_true, decide_eq_true_eq]
    rintro (h | h)
    exacts [htrue h, hfalse h]), hdt]
  rw [if_neg (by
    intro hcond
    rw [Bool.and_eq_true, Bool.and_eq_true] at hcond
    rw [hq] at hcond
    exact Bool.false_ne_true hcond.1.1)]
  rw [hlong]
  simp only [Bool.false_eq_true, if_false]
  rw [hdecd]
  simp only [if_true]
  rw [hnum]

/-- An input whose stripped form matches none of the recognized shapes
comes back stripped of surrounding whitespace but otherwise unchanged
(the plain-number branch also returns the stripped input itself). -/
theorem parse_literal_unrecognized (s : String)
    (hnull : pyLower (pyStrip s) ≠ "null")
    (htrue : pyLower (pyStrip s) ≠ "true")
    (hfalse : pyLower (pyStrip s) ≠ "false")
    (hdt : matchDatetime (pyStrip s).data = none)
    (hq : (pyStartswith (pyStrip s) "\x27" && pyEndswith (pyStrip s) "\x27" &&
      decide ((pyStrip s).data.length ≥ 2)) = false)
    (hlong : matchesLongRe (pyStrip s).data = false)
    (hdecd : matchesDecDRe (pyStrip s).data = false) :
    parse_literal (some s) = pyStrip s := by
  simp only [parse_literal]
  rw [if_neg hnull, if_neg (by
    simp only [Bool.or_eq_true, decide_eq_true_eq]
    rintro (h | h)
    exacts [htrue h, hfalse h]), hdt]
  rw [if_neg (by rw [hq]; exact Bool.false_ne_true)]
  rw [hlong]
  simp only [Bool.false_eq_true, if_false]
  rw [hdecd]
  simp only [Bool.false_eq_true, if_false]
  split <;> rfl

/-- Claim C8 counterexample: the unrecognized input " foo " is not
returned unchanged — parse_literal strips it. -/
theorem c8_counterexample :
    parse_literal (some " foo ") ≠ " foo " ∧ parse_literal (some " foo ") = "foo" :=
  ⟨by decide, by decide⟩

/-- Claim C8 (amended): parse_literal maps each recognized literal
shape as specified — quoted strings to double-quoted strings with
embedded quotes doubled, datetime literals to DATE(y, m, d), an
unsigned long-suffixed integer to the bare digits, a negative long to
the bare negative integer plus the relative-offset comment, D-suffixed
decimals to the bare decimal, true/false to TRUE/FALSE, null and None
to BLANK() — and any unrecognized input is returned stripped of
surrounding whitespace but otherwise unchanged. -/
theorem c8_parse_literal_mapping :
    (∀ inner : String,
      parse_literal (some ("\x27" ++ inner ++ "\x27")) =
        "\"" ++ String.mk (escapeQuotes inner.data) ++ "\"") ∧
    (∀ y1 y2 y3 y4 m1 m2 d1 d2 : Char, ∀ tail : String,
      [y1, y2, y3, y4, m1, m2, d1, d2].all Char.isDigit = true →
      parse_literal (some (String.mk ("datetime\x27".data ++
          ([y1, y2, y3, y4, '-', m1, m2, '-', d1, d2, 'T'] ++ tail.data)))) =
        "DATE(" ++ toString (digitsVal [y1, y2, y3, y4]) ++ ", " ++
          toString (digitsVal [m1, m2]) ++ ", " ++ toString (digitsVal [d1, d2]) ++ ")") ∧
    (∀ ds : List Char, ds ≠ [] → ds.all Char.isDigit = true →
      parse_literal (some (String.mk (ds ++ ['L']))) = String.mk ds) ∧
    (∀ ds : List Char, ds ≠ [] → ds.all Char.isDigit = true →
      parse_literal (some (String.mk ('-' :: ds ++ ['L']))) =
        String.mk ('-' :: ds) ++ " /* relative offset — cannot resolve statically */") ∧
    (∀ ds : List Char, ds ≠ [] → ds.all Char.isDigit = true →
      parse_literal (some (String.mk (ds ++ ['D']))) = String.mk ds) ∧
    (∀ ds fs : List Char, ds ≠ [] → fs ≠ [] →
      ds.all Char.isDigit = true → fs.all Char.isDigit = true →
      parse_literal (some (String.mk ((ds ++ '.' :: fs) ++ ['D']))) =
        String.mk (ds ++ '.' :: fs)) ∧
    (parse_literal (some "true") = "TRUE" ∧ parse_literal (some "false") = "FALSE" ∧
     parse_literal (some "null") = "BLANK()" ∧ parse_literal none = "BLANK()") ∧
    (∀ s : String,
      pyLower (pyStrip s) ≠ "null" →
      pyLower (pyStrip s) ≠ "true" →
      pyLower (pyStrip s) ≠ "false" →
      matchDatetime (pyStrip s).data = none →
      (pyStartswith (pyStrip s) "\x27" && pyEndswith (pyStrip s) "\x27" &&
        decide ((pyStrip s).data.length ≥ 2)) = false →
      matchesLongRe (pyStrip s).data = false →
      matchesDecDRe (pyStrip s).data = false →
      parse_literal (some s) = pyStrip s) :=
  ⟨parse_literal_quoted, parse_literal_datetime,
   parse_literal_long_nonneg, parse_literal_long_neg,
   parse_literal_decD_int,
   fun ds fs hne hfne hd hfd => parse_literal_decD_frac ds fs hne hfne hd hfd,
   ⟨by decide, by decide, by decide, by decide⟩,
   parse_literal_unrecognized⟩

/-- Claim C8 witness: the spec's own examples, derived by applying the
mapping theorem at concrete digit lists. -/
theorem c8_witness :
    parse_literal (some "6L") = "6" ∧
    parse_literal (some "-6L") =
      "-6 /* relative offset — cannot resolve statically */" ∧
    parse_literal (some "0D") = "0" ∧
    parse_literal (some " foo ") = "foo" :=
  ⟨c8_parse_literal_mapping.2.2.1 ['6'] (by decide) (by decide),
   c8_parse_literal_mapping.2.2.2.1 ['6'] (by decide) (by decide),
   c8_parse_literal_mapping.2.2.2.2.1 ['0'] (by decide) (by decide),
   c8_parse_literal_mapping.2.2.2.2.2.2.2 " foo "
     (by decide) (by decide) (by decide) (by decide) (by decide) (by decide) (by decide)⟩

/-- When no reference extracted from the filters matches any measure
formula in the three textual forms, no warnings are produced. -/
theorem check_filter_redundancy_empty (measures : List VisualField)
    (filter_exprs : List String) (model : Option SemanticModel)
    (h : ∀ tc ∈ parse_filter_column_refs filter_exprs, ∀ m ∈ measures,
      filter_ref_in_formula (redundancy_formula m model) tc.1 tc.2 m.table_sm = false) :
    check_filter_redundancy measures filter_exprs model = [] := by
  unfold check_filter_redundancy
  by_cases hr : (parse_filter_column_refs filter_exprs).isEmpty = true
  · rw [if_pos hr]
  · rw [if_neg hr]
    rw [List.flatten_eq_nil_iff]
    intro l hl
    rw [List.mem_map] at hl
    obtain ⟨m, hm, hfm⟩ := hl
    subst hfm
    by_cases hform : redundancy_formula m model = ""
    · rw [if_pos hform]
    · rw [if_neg hform]
      rw [List.filterMap_eq_nil_iff]
      intro tc htc
      rw [if_neg]
      rw [h tc htc m hm]
      exact Bool.false_ne_true

/-- Every warning row records a reference extracted from the filters,
the find-first-or-head filter expression for that reference, and the
matching measure's identity and 80-character formula excerpt. -/
theorem check_filter_redundancy_sound (measures : List VisualField)
    (filter_exprs : List String) (model : Option SemanticModel)
    (w : RedundancyWarning)
    (hw : w ∈ check_filter_redundancy measures filter_exprs model) :
    (w.filter_table, w.filter_column) ∈ parse_filter_column_refs filter_exprs ∧
    w.filter_expr = ((filter_exprs.find? (fun e => strContains e
        ("\x27" ++ w.filter_table ++ "\x27[" ++ w.filter_column ++ "]"))).getD
      (filter_exprs.headD "")) ∧
    ∃ m ∈ measures, redundancy_formula m model ≠ "" ∧
      filter_ref_in_formula (redundancy_formula m model) w.filter_table
        w.filter_column m.table_sm = true ∧
      w.measure_name = m.col_sm ∧
      w.measure_formula = String.mk ((redundancy_formula m model).data.take 80) := by
  unfold check_filter_redundancy at hw
  by_cases hr : (parse_filter_column_refs filter_exprs).isEmpty = true
  · rw [if_pos hr] at hw
    cases hw
  · rw [if_neg hr] at hw
    rw [List.mem_flatten] at hw
    obtain ⟨l, hl, hwl⟩ := hw
    rw [List.mem_map] at hl
    obtain ⟨m, hm, hfm⟩ := hl
    subst hfm
    by_cases hform : redundancy_formula m model = ""
    · rw [if_pos hform] at hwl
      cases hwl
    · rw [if_neg hform] at hwl
      rw [List.mem_filterMap] at hwl
      obtain ⟨tc, htc, hsome⟩ := hwl
      split_ifs at hsome with hmatch
      rw [Option.some_inj] at hsome
      subst hsome
      exact ⟨htc, rfl, m, hm, hform, hmatch, rfl, rfl⟩

/-- Claim C2 counterexample: two distinct candidate filters referencing
the same column as a measure formula — the second filter's reference
appears in the formula (all three textual forms apply), yet only the
first filter is dropped and the second remains active. -/
theorem c2_counterexample :
    single_visual_active_filters
        [{ ui_name := "M", usage := "Visual Value", table_sm := "T", col_sm := "M",
           measure_formula := "\x27B\x27[Y] + 0" }]
        ["\x27B\x27[Y] = 1", "\x27B\x27[Y] = 2"] none = ["\x27B\x27[Y] = 2"] ∧
    strContains (pyUpper "\x27B\x27[Y] + 0") (pyUpper "\x27B\x27[Y]") = true :=
  ⟨by decide, by decide⟩

/-- Claim C2 (amended): (i) when no extracted (table, column) reference
matches any measure formula in the three textual forms, the active set
is the supplied filter list unchanged; (ii) every warning names a
reference extracted from the filters, the first filter expression
containing that reference verbatim (or the first filter as fallback),
and the matching measure with an 80-character formula excerpt;
(iii) conversely, every reference extracted from the filters that a
measure formula contains in one of the three forms records exactly
that warning payload; (iv) the active set equals the supplied list
filtered by non-membership in the warned filter expressions — so each
filter named in a warning is dropped and every other filter, including
a later candidate referencing the same column, stays active in
order. -/
theorem c2_filter_redundancy (fields : List VisualField)
    (filter_exprs : List String) (model : Option SemanticModel) :
    ((∀ tc ∈ parse_filter_column_refs filter_exprs,
        ∀ m ∈ fields.filter (fun f => classify_field f.usage == "measure"),
        filter_ref_in_formula (redundancy_formula m model) tc.1 tc.2 m.table_sm = false) →
      single_visual_active_filters fields filter_exprs model = filter_exprs) ∧
    (∀ w ∈ check_filter_redundancy
        (fields.filter (fun f => classify_field f.usage == "measure")) filter_exprs model,
      (w.filter_table, w.filter_column) ∈ parse_filter_column_refs filter_exprs ∧
      w.filter_expr = ((filter_exprs.find? (fun e => strContains e
          ("\x27" ++ w.filter_table ++ "\x27[" ++ w.filter_column ++ "]"))).getD
        (filter_exprs.headD "")) ∧
      ∃ m ∈ fields.filter (fun f => classify_field f.usage == "measure"),
        redundancy_formula m model ≠ "" ∧
        filter_ref_in_formula (redundancy_formula m model) w.filter_table
          w.filter_column m.table_sm = true ∧
        w.measure_name = m.col_sm ∧
        w.measure_formula = String.mk ((redundancy_formula m model).data.take 80)) ∧
    (∀ tc ∈ parse_filter_column_refs filter_exprs,
      ∀ m ∈ fields.filter (fun f => classify_field f.usage == "measure"),
      redundancy_formula m model ≠ "" →
      filter_ref_in_formula (redundancy_formula m model) tc.1 tc.2 m.table_sm = true →
      ({ measure_name := m.col_sm,
         filter_expr := ((filter_exprs.find? (fun e => strContains e
             ("\x27" ++ tc.1 ++ "\x27[" ++ tc.2 ++ "]"))).getD
           (filter_exprs.headD "")),
         filter_table := tc.1,
         filter_column := tc.2,
         measure_formula := String.mk ((redundancy_formula m model).data.take 80) } :
        RedundancyWarning) ∈ check_filter_redundancy
          (fields.filter (fun f => classify_field f.usage == "measure"))
          filter_exprs model) ∧
    single_visual_active_filters fields filter_exprs model =
      filter_exprs.filter (fun f =>
        !((check_filter_redundancy
            (fields.filter (fun f => classify_field f.usage == "measure"))
            filter_exprs model).map (·.filter_expr)).contains f) := by
  refine ⟨?_, ?_, ?_, ?_⟩
  · intro h
    unfold single_visual_active_filters
    by_cases hfe : filter_exprs.isEmpty = true
    · rw [if_pos hfe]
    · rw [if_neg hfe]
      dsimp only
      rw [check_filter_redundancy_empty _ _ _ h]
      simp
  · intro w hw
    exact check_filter_redundancy_sound _ _ _ w hw
  · intro tc htc m hm hform hmatch
    have hne : ¬((parse_filter_column_refs filter_exprs).isEmpty = true) := by
      intro hie
      rw [List.isEmpty_iff] at hie
      rw [hie] at htc
      cases htc
    unfold check_filter_redundancy
    rw [if_neg hne]
    apply List.mem_flatten.2
    refine ⟨_, List.mem_map_of_mem _ hm, ?_⟩
    dsimp only
    rw [if_neg hform]
    apply List.mem_filterMap.2
    refine ⟨tc, htc, ?_⟩
    rw [if_pos hmatch]
  · unfold single_visual_active_filters
    by_cases hfe : filter_exprs.isEmpty = true
    · rw [if_pos hfe]
      rw [List.isEmpty_iff] at hfe
      rw [hfe]
      rfl
    · rw [if_neg hfe]
      dsimp only
      by_cases hwarn : (check_filter_redundancy
          (fields.filter (fun f => classify_field f.usage == "measure"))
          filter_exprs model).isEmpty = true
      · rw [if_pos hwarn]
        rw [List.isEmpty_iff] at hwarn
        rw [hwarn]
        simp
      · rw [if_neg hwarn]

/-- Claim C2 witness: a visual whose measure formula references no
filtered column keeps both supplied filters active; in the
counterexample scenario the matching reference records its exact
warning payload naming the first filter, and the active set is the
supplied list minus exactly that warned filter, so the second
same-column filter survives. -/
theorem c2_witness :
    single_visual_active_filters
        [{ ui_name := "M", usage := "Visual Value", table_sm := "T", col_sm := "M",
           measure_formula := "\x27A\x27[X] + 1" }]
        ["\x27B\x27[Y] = 1", "\x27B\x27[Y] = 2"] none = ["\x27B\x27[Y] = 1", "\x27B\x27[Y] = 2"] ∧
    ({ measure_name := "M", filter_expr := "\x27B\x27[Y] = 1", filter_table := "B",
       filter_column := "Y", measure_formula := "\x27B\x27[Y] + 0" } : RedundancyWarning) ∈
      check_filter_redundancy
        ([{ ui_name := "M", usage := "Visual Value", table_sm := "T", col_sm := "M",
            measure_formula := "\x27B\x27[Y] + 0" }].filter
          (fun f => classify_field f.usage == "measure"))
        ["\x27B\x27[Y] = 1", "\x27B\x27[Y] = 2"] none ∧
    single_visual_active_filters
        [{ ui_name := "M", usage := "Visual Value", table_sm := "T", col_sm := "M",
           measure_formula := "\x27B\x27[Y] + 0" }]
        ["\x27B\x27[Y] = 1", "\x27B\x27[Y] = 2"] none =
      ["\x27B\x27[Y] = 1", "\x27B\x27[Y] = 2"].filter (fun f =>
        !((check_filter_redundancy
            ([{ ui_name := "M", usage := "Visual Value", table_sm := "T", col_sm := "M",
                measure_formula := "\x27B\x27[Y] + 0" }].filter
              (fun f => classify_field f.usage == "measure"))
            ["\x27B\x27[Y] = 1", "\x27B\x27[Y] = 2"] none).map (·.filter_expr)).contains f) :=
  ⟨(c2_filter_redundancy _ _ none).1 (by decide),
   (c2_filter_redundancy
      [{ ui_name := "M", usage := "Visual Value", table_sm := "T", col_sm := "M",
         measure_formula := "\x27B\x27[Y] + 0" }]
      ["\x27B\x27[Y] = 1", "\x27B\x27[Y] = 2"] none).2.2.1
    ("B", "Y") (by decide)
    { ui_name := "M", usage := "Visual Value", table_sm := "T", col_sm := "M",
      measure_formula := "\x27B\x27[Y] + 0" }
    (by decide) (by decide) (by decide),
   (c2_filter_redundancy
      [{ ui_name := "M", usage := "Visual Value", table_sm := "T", col_sm := "M",
         measure_formula := "\x27B\x27[Y] + 0" }]
      ["\x27B\x27[Y] = 1", "\x27B\x27[Y] = 2"] none).2.2.2⟩

/-- A whitespace-then-close test fails on a segment that contains a
non-whitespace character and no closing brace. -/
theorem wsCloseB_false (l : List Char) (hnz : ∃ c ∈ l, pyIsSpace c = false)
    (hnb : ∀ c ∈ l, c ≠ '\x7d') : wsCloseB (l ++ [' ', '\x7d']) = false := by
  induction l with
  | nil =>
    obtain ⟨c, hc, _⟩ := hnz
    cases hc
  | cons c t ih =>
    by_cases hws : pyIsSpace c = true
    · have : wsCloseB ((c :: t) ++ [' ', '\x7d']) = wsCloseB (t ++ [' ', '\x7d']) := by
        unfold wsCloseB
        rw [List.cons_append, List.dropWhile_cons, hws]
        simp
      rw [this]
      apply ih
      · obtain ⟨x, hx, hxs⟩ := hnz
        rcases List.mem_cons.1 hx with heq | hmem
        · subst heq
          rw [hws] at hxs
          cases hxs
        · exact ⟨x, hmem, hxs⟩
      · exact fun x hx => hnb x (List.mem_cons_of_mem _ hx)
    · rw [Bool.not_eq_true] at hws
      unfold wsCloseB
      rw [List.cons_append, List.dropWhile_cons, hws]
      simp only [Bool.false_eq_true, if_false]
      have := hnb c (List.mem_cons_self c t)
      simp [this]

/-- The lazy capture group stops exactly at the appended
space-and-close pair when the content has no newline, no closing brace
and a non-whitespace last character. -/
theorem lazyContent_append_close (l : List Char) (hne : l ≠ [])
    (hnl : ∀ c ∈ l, c ≠ '\n' ∧ c ≠ '\x7d')
    (hlast : ∀ c, l.getLast? = some c → pyIsSpace c = false) :
    lazyContent (l ++ [' ', '\x7d']) = some l := by
  induction l with
  | nil => exact absurd rfl hne
  | cons x t ih =>
    cases t with
    | nil =>
      unfold lazyContent
      rw [List.cons_append, List.nil_append]
      dsimp only
      rw [if_neg (by simpa using (hnl x (List.mem_cons_self x [])).1)]
      rw [if_pos (by decide : wsCloseB [' ', '\x7d'] = true)]
    | cons y rest =>
      unfold lazyContent
      rw [List.cons_append]
      dsimp only
      rw [if_neg (by simpa using (hnl x (List.mem_cons_self x (y :: rest))).1)]
      have hwsc : wsCloseB ((y :: rest) ++ [' ', '\x7d']) = false := by
        apply wsCloseB_false
        · obtain ⟨c, hcl⟩ : ∃ c, (y :: rest).getLast? = some c := by
            cases hh : (y :: rest).getLast? with
            | none => simp at hh
            | some c => exact ⟨c, rfl⟩
          refine ⟨c, List.mem_of_mem_getLast? hcl, ?_⟩
          apply hlast
          rw [List.getLast?_cons_cons]
          exact hcl
        · exact fun c hc => (hnl c (List.mem_cons_of_mem _ hc)).2
      rw [hwsc]
      simp only [Bool.false_eq_true, if_false]
      rw [ih (by simp)
        (fun c hc => hnl c (List.mem_cons_of_mem _ hc))
        (fun c hc => hlast c (by rwa [List.getLast?_cons_cons]))]

/-- rstrip keeps the head of a list that starts with a non-whitespace
character. -/
theorem head_rstripL_cons (c : Char) (l : List Char) (hc : pyIsSpace c = false) :
    (rstripL (c :: l)).head? = some c := by
  unfold rstripL
  rw [show (c :: l).reverse = l.reverse ++ [c] from by simp]
  rw [List.dropWhile_append]
  by_cases he : ((l.reverse).dropWhile pyIsSpace).isEmpty = true
  · rw [if_pos he]
    rw [show [c].dropWhile pyIsSpace = [c] from by simp [List.dropWhile_cons, hc]]
    rfl
  · rw [if_neg he]
    rw [List.reverse_append]
    rfl

/-- A string whose first character is an opening brace is not a filter
comment. -/
theorem notFilterComment_of_head (l : List Char) (hc : l.head? = some '\x7b') :
    pyStartswith (String.mk l) "-- Filter:" = false := by
  obtain ⟨t, rfl⟩ : ∃ t, l = '\x7b' :: t := by
    cases l with
    | nil => cases hc
    | cons a t =>
      refine ⟨t, ?_⟩
      have : a = '\x7b' := by simpa using hc
      rw [this]
  unfold pyStartswith
  rw [show "-- Filter:".data = '-' :: "- Filter:".data from rfl]
  have hbeq : ('-' == '\x7b') = false := by decide
  simp [List.isPrefixOf, hbeq]

/-- The brace search skips a non-brace character. -/
theorem braceSearchL_cons_ne (c : Char) (l : List Char) (hc : ¬ (c = '\x7b')) :
    braceSearchL (c :: l) = braceSearchL l := by
  rw [braceSearchL, if_neg hc]

/-- Claim C7: for a base query of the single-measure shape and any
non-empty filter list, wrap_dax_with_filters wraps the measure
expression itself in CALCULATE inside the braces, rather than applying
the CALCULATETABLE wrapper used for the other patterns.  The measure
expression is assumed newline-free, brace-free and trimmed, as every
rendered measure expression is. -/
theorem c7_wrap_single_measure_calculate (E : String) (fs : List String)
    (hfs : fs ≠ [])
    (hne : E.data ≠ [])
    (hchars : ∀ c ∈ E.data, c ≠ '\n' ∧ c ≠ '\x7d')
    (hhead : ∀ c, E.data.head? = some c → pyIsSpace c = false)
    (hlast : ∀ c, E.data.getLast? = some c → pyIsSpace c = false) :
    wrap_dax_with_filters ("EVALUATE\n\x7b " ++ E ++ " \x7d") fs
        "Pattern 1: Single Measure" =
      "EVALUATE\n\x7b CALCULATE(" ++ E ++ ",\n    " ++
        String.intercalate ",\n    " fs ++ "\n) \x7d" := by
  have hbdata : ("EVALUATE\n\x7b " ++ E ++ " \x7d").data =
      'E' :: 'V' :: 'A' :: 'L' :: 'U' :: 'A' :: 'T' :: 'E' :: '\n' :: '\x7b' :: ' ' ::
        (E.data ++ [' ', '\x7d']) := by
    rw [String.data_append, String.data_append]
    rfl
  have hline2 : '\n' ∉ '\x7b' :: ' ' :: (E.data ++ [' ', '\x7d']) := by
    intro hm
    rcases List.mem_cons.1 hm with h | hm
    · cases h
    rcases List.mem_cons.1 hm with h | hm
    · cases h
    rcases List.mem_append.1 hm with h | h
    · exact (hchars _ h).1 rfl
    · rcases List.mem_cons.1 h with h' | h'
      · cases h'
      · rcases List.mem_cons.1 h' with h'' | h''
        · cases h''
        · cases h''
  have hclean : stripFilterComments ("EVALUATE\n\x7b " ++ E ++ " \x7d") =
      "EVALUATE\n\x7b " ++ E ++ " \x7d" := by
    unfold stripFilterComments
    rw [hbdata]
    rw [show 'E' :: 'V' :: 'A' :: 'L' :: 'U' :: 'A' :: 'T' :: 'E' :: '\n' :: '\x7b' :: ' ' ::
        (E.data ++ [' ', '\x7d']) =
      "EVALUATE".data ++ '\n' :: ('\x7b' :: ' ' :: (E.data ++ [' ', '\x7d'])) from rfl]
    rw [splitCh_sep_append '\n' _ _ (by decide), splitCh_of_not_mem '\n' _ hline2]
    dsimp only
    rw [List.takeWhile_cons_of_pos (by decide)]
    rw [List.takeWhile_cons_of_pos (by
      have hh : (stripL ('\x7b' :: ' ' :: (E.data ++ [' ', '\x7d']))).head? = some '\x7b' := by
        unfold stripL
        rw [lstripL_eq_self _ (by
          intro c hc
          have : c = '\x7b' := by simpa using hc.symm
          subst this
          decide)]
        exact head_rstripL_cons _ _ (by decide)
      rw [notFilterComment_of_head _ hh]
      rfl)]
    rw [show List.takeWhile _ ([] : List (List Char)) = [] from rfl]
    rw [show joinNL ["EVALUATE".data, '\x7b' :: ' ' :: (E.data ++ [' ', '\x7d'])] =
      "EVALUATE".data ++ '\n' :: ('\x7b' :: ' ' :: (E.data ++ [' ', '\x7d'])) from rfl]
    rw [show "EVALUATE".data ++ '\n' :: ('\x7b' :: ' ' :: (E.data ++ [' ', '\x7d'])) =
      ("EVALUATE".data ++ '\n' :: '\x7b' :: ' ' :: E.data ++ [' ']) ++ ['\x7d'] from by
        simp]
    rw [rstripL_eq_self _ (by
      intro c hc
      rw [List.getLast?_concat] at hc
      have : c = '\x7d' := by simpa using hc.symm
      subst this
      decide)]
    ext1
    rw [hbdata]
    simp
  have hsearch : braceSearch ("EVALUATE\n\x7b " ++ E ++ " \x7d") = some E := by
    unfold braceSearch
    rw [hbdata]
    rw [braceSearchL_cons_ne _ _ (by decide), braceSearchL_cons_ne _ _ (by decide),
      braceSearchL_cons_ne _ _ (by decide), braceSearchL_cons_ne _ _ (by decide),
      braceSearchL_cons_ne _ _ (by decide), braceSearchL_cons_ne _ _ (by decide),
      braceSearchL_cons_ne _ _ (by decide), braceSearchL_cons_ne _ _ (by decide),
      braceSearchL_cons_ne _ _ (by decide)]
    rw [braceSearchL, if_pos rfl]
    obtain ⟨e0, et, hE⟩ : ∃ e0 et, E.data = e0 :: et := by
      cases hE : E.data with
      | nil => exact absurd hE hne
      | cons e0 et => exact ⟨e0, et, rfl⟩
    have hW : ((' ' :: (E.data ++ [' ', '\x7d'])).takeWhile pyIsSpace).length = 1 := by
      rw [List.takeWhile_cons_of_pos (by decide)]
      rw [hE, List.cons_append]
      rw [List.takeWhile_cons_of_neg (by
        have := hhead e0 (by rw [hE]; rfl)
        simp [this])]
      rfl
    unfold matchBraceAt
    rw [hW]
    rw [show tryW 1 (' ' :: (E.data ++ [' ', '\x7d'])) =
      match lazyContent ((' ' :: (E.data ++ [' ', '\x7d'])).drop 1) with
      | some cap => some cap
      | none => tryW 0 (' ' :: (E.data ++ [' ', '\x7d'])) from rfl]
    rw [show (' ' :: (E.data ++ [' ', '\x7d'])).drop 1 = E.data ++ [' ', '\x7d'] from rfl]
    rw [lazyContent_append_close E.data hne hchars hlast]
    rfl
  unfold wrap_dax_with_filters
  rw [if_neg (by simp [hfs])]
  dsimp only
  rw [hclean, if_pos rfl, hsearch]

/-- Claim C7 witness: the spec's example — a single-measure query
filtered on a store region — wraps the measure reference in CALCULATE
inside the braces. -/
theorem c7_witness :
    wrap_dax_with_filters "EVALUATE\n\x7b [Revenue] \x7d"
        ["\x27Store\x27[Region] = \"East\""] "Pattern 1: Single Measure" =
      "EVALUATE\n\x7b CALCULATE([Revenue],\n    \x27Store\x27[Region] = \"East\"\n) \x7d" := by
  have h := c7_wrap_single_measure_calculate "[Revenue]"
    ["\x27Store\x27[Region] = \"East\""]
    (by decide) (by decide) (by decide) (by decide) (by decide)
  exact h.trans (by decide)

/-- One resolver step: a reference already present among the
dependency columns is skipped. -/
theorem rr_cons_any (lookup : List ((String × String) × String)) (r : String)
    (rest : List String) (deps : List MeasureDep) (visited : List String)
    (h : deps.any (fun d => d.2 = pyStrip r) = true) :
    (resolveRefs lookup (r :: rest) deps visited).1 =
      (resolveRefs lookup rest deps visited).1 := by
  rw [resolveRefs, if_pos h]

/-- One resolver step: an already visited reference is skipped. -/
theorem rr_cons_mem (lookup : List ((String × String) × String)) (r : String)
    (rest : List String) (deps : List MeasureDep) (visited : List String)
    (h1 : ¬ (deps.any (fun d => d.2 = pyStrip r) = true))
    (h2 : pyStrip r ∈ visited) :
    (resolveRefs lookup (r :: rest) deps visited).1 =
      (resolveRefs lookup rest deps visited).1 := by
  rw [resolveRefs, if_neg h1, dif_pos h2]

/-- One resolver step: a fresh reference with no matching measure is
only marked visited. -/
theorem rr_cons_none (lookup : List ((String × String) × String)) (r : String)
    (rest : List String) (deps : List MeasureDep) (visited : List String)
    (h1 : ¬ (deps.any (fun d => d.2 = pyStrip r) = true))
    (h2 : pyStrip r ∉ visited)
    (hfind : lookup.find? (fun p => p.1.2 = pyStrip r) = none) :
    (resolveRefs lookup (r :: rest) deps visited).1 =
      (resolveRefs lookup rest deps (visited ++ [pyStrip r])).1 := by
  rw [resolveRefs, if_neg h1, dif_neg h2]
  split
  · rfl
  · next p heq =>
    rw [hfind] at heq
    cases heq

/-- One resolver step: a fresh reference with a matching measure is
recorded, its formula recursively resolved, and the sub-results
merged. -/
theorem rr_cons_some (lookup : List ((String × String) × String)) (r : String)
    (rest : List String) (deps : List MeasureDep) (visited : List String)
    (p : (String × String) × String)
    (h1 : ¬ (deps.any (fun d => d.2 = pyStrip r) = true))
    (h2 : pyStrip r ∉ visited)
    (hfind : lookup.find? (fun p => p.1.2 = pyStrip r) = some p) :
    (resolveRefs lookup (r :: rest) deps visited).1 =
      (resolveRefs lookup rest
        (mergeDeps (addDep deps (p.1.1, pyStrip r))
          (resolveRefs lookup (nestedRefsOf p.2) (directDeps p.2)
            (visited ++ [pyStrip r])).1.1)
        (resolveRefs lookup (nestedRefsOf p.2) (directDeps p.2)
          (visited ++ [pyStrip r])).1.2).1 := by
  rw [resolveRefs, if_neg h1, dif_neg h2]
  split
  · next heq =>
    rw [hfind] at heq
    cases heq
  · next q heq =>
    rw [hfind] at heq
    cases heq
    rfl

/-- Growing the visited set never increases the count of unvisited
measure names. -/
theorem unvisitedCount_le_of_subset (lookup : List ((String × String) × String))
    (v w : List String) (h : ∀ x ∈ v, x ∈ w) :
    unvisitedCount lookup w ≤ unvisitedCount lookup v := by
  apply Finset.card_le_card
  apply Finset.sdiff_subset_sdiff (le_refl _)
  intro x hx
  exact List.mem_toFinset.2 (h x (List.mem_toFinset.1 hx))

/-- Visiting a fresh measure name strictly decreases the count of
unvisited measure names. -/
theorem unvisitedCount_append_lt (lookup : List ((String × String) × String))
    (v : List String) (x : String)
    (hx : x ∈ lookup.map (fun p => p.1.2)) (hnx : x ∉ v) :
    unvisitedCount lookup (v ++ [x]) < unvisitedCount lookup v := by
  apply Finset.card_lt_card
  constructor
  · apply Finset.sdiff_subset_sdiff (le_refl _)
    intro y hy
    rw [List.toFinset_append]
    exact Finset.mem_union_left _ hy
  · intro hall
    have hxin : x ∈ (lookup.map (fun p => p.1.2)).toFinset \ v.toFinset := by
      rw [Finset.mem_sdiff]
      exact ⟨List.mem_toFinset.2 hx, fun hc => hnx (List.mem_toFinset.1 hc)⟩
    have hxout := hall hxin
    rw [Finset.mem_sdiff, List.toFinset_append] at hxout
    exact hxout.2 (Finset.mem_union_right _ (by simp))

/-- Appending a fresh element preserves distinctness. -/
theorem nodup_concat_fresh {α : Type} (v : List α) (x : α)
    (hv : v.Nodup) (hx : x ∉ v) : (v ++ [x]).Nodup := by
  rw [List.nodup_append]
  refine ⟨hv, List.nodup_singleton _, ?_⟩
  intro a ha hax
  rw [List.mem_singleton] at hax
  subst hax
  exact hx ha

/-- addDep preserves distinctness of the dependency list. -/
theorem addDep_nodup (deps : List MeasureDep) (d : MeasureDep)
    (h : deps.Nodup) : (addDep deps d).Nodup := by
  unfold addDep
  split_ifs with hm
  · exact h
  · exact nodup_concat_fresh deps d h hm

/-- mergeDeps preserves distinctness of the accumulator. -/
theorem mergeDeps_nodup (sub : List MeasureDep) :
    ∀ deps : List MeasureDep, deps.Nodup → (mergeDeps deps sub).Nodup := by
  induction sub with
  | nil => exact fun deps h => h
  | cons d t ih => exact fun deps h => ih (addDep deps d) (addDep_nodup deps d h)

/-- The direct-reference pass yields a duplicate-free list. -/
theorem directDeps_nodup (formula : String) : (directDeps formula).Nodup := by
  unfold directDeps
  have hgen : ∀ (gs : List (List Char × List Char)) (acc : List MeasureDep), acc.Nodup →
      (gs.foldl (fun deps g =>
        let table := String.mk (stripL g.1)
        let col := String.mk (stripL g.2)
        if table ≠ "" ∧ col ≠ "" then addDep deps (table, col) else deps) acc).Nodup := by
    intro gs
    induction gs with
    | nil => exact fun acc h => h
    | cons g t ih =>
      intro acc h
      rw [List.foldl_cons]
      apply ih
      dsimp only
      split_ifs with hc
      · exact addDep_nodup _ _ h
      · exact h
  exact hgen _ [] List.nodup_nil

/-- The resolver preserves distinctness of both the dependency list
and the visited set, by induction on the number of unvisited measure
names with an inner induction on the reference list. -/
theorem resolveRefs_nodup (lookup : List ((String × String) × String)) :
    ∀ (n : Nat) (refs : List String) (deps : List MeasureDep) (visited : List String),
      unvisitedCount lookup visited ≤ n → deps.Nodup → visited.Nodup →
      (resolveRefs lookup refs deps visited).1.1.Nodup ∧
      (resolveRefs lookup refs deps visited).1.2.Nodup := by
  intro n
  induction n with
  | zero =>
    intro refs
    induction refs with
    | nil =>
      intro deps visited _ hd hv
      rw [resolveRefs]
      exact ⟨hd, hv⟩
    | cons r rest ih =>
      intro deps visited hn hd hv
      by_cases h1 : deps.any (fun d => d.2 = pyStrip r) = true
      · rw [rr_cons_any _ _ _ _ _ h1]
        exact ih deps visited hn hd hv
      · by_cases h2 : pyStrip r ∈ visited
        · rw [rr_cons_mem _ _ _ _ _ h1 h2]
          exact ih deps visited hn hd hv
        · cases hfind : lookup.find? (fun p => p.1.2 = pyStrip r) with
          | none =>
            rw [rr_cons_none _ _ _ _ _ h1 h2 hfind]
            apply ih
            · exact le_trans (unvisitedCount_le_of_subset lookup visited _
                (fun x hx => List.mem_append_left _ hx)) hn
            · exact hd
            · exact nodup_concat_fresh visited _ hv h2
          | some p =>
            exfalso
            have hp2 : p.1.2 = pyStrip r := by simpa using List.find?_some hfind
            have hmem : pyStrip r ∈ lookup.map (fun q => q.1.2) :=
              hp2 ▸ List.mem_map_of_mem _ (List.mem_of_find?_eq_some hfind)
            have hlt := unvisitedCount_append_lt lookup visited (pyStrip r) hmem h2
            exact absurd (Nat.lt_of_lt_of_le hlt hn) (Nat.not_lt_zero _)
  | succ m ihm =>
    intro refs
    induction refs with
    | nil =>
      intro deps visited _ hd hv
      rw [resolveRefs]
      exact ⟨hd, hv⟩
    | cons r rest ih =>
      intro deps visited hn hd hv
      by_cases h1 : deps.any (fun d => d.2 = pyStrip r) = true
      · rw [rr_cons_any _ _ _ _ _ h1]
        exact ih deps visited hn hd hv
      · by_cases h2 : pyStrip r ∈ visited
        · rw [rr_cons_mem _ _ _ _ _ h1 h2]
          exact ih deps visited hn hd hv
        · cases hfind : lookup.find? (fun p => p.1.2 = pyStrip r) with
          | none =>
            rw [rr_cons_none _ _ _ _ _ h1 h2 hfind]
            apply ih
            · exact le_trans (unvisitedCount_le_of_subset lookup visited _
                (fun x hx => List.mem_append_left _ hx)) hn
            · exact hd
            · exact nodup_concat_fresh visited _ hv h2
          | some p =>
            have hp2 : p.1.2 = pyStrip r := by simpa using List.find?_some hfind
            have hmem : pyStrip r ∈ lookup.map (fun q => q.1.2) :=
              hp2 ▸ List.mem_map_of_mem _ (List.mem_of_find?_eq_some hfind)
            have hlt := unvisitedCount_append_lt lookup visited (pyStrip r) hmem h2
            have hsub := ihm (nestedRefsOf p.2) (directDeps p.2)
              (visited ++ [pyStrip r]) (by omega) (directDeps_nodup _)
              (nodup_concat_fresh visited _ hv h2)
            rw [rr_cons_some _ _ _ _ _ p h1 h2 hfind]
            apply ih
            · have hmono := unvisitedCount_le_of_subset lookup (visited ++ [pyStrip r])
                (resolveRefs lookup (nestedRefsOf p.2) (directDeps p.2)
                  (visited ++ [pyStrip r])).1.2
                (resolveRefs lookup (nestedRefsOf p.2) (directDeps p.2)
                  (visited ++ [pyStrip r])).2
              omega
            · exact mergeDeps_nodup _ _ (addDep_nodup _ _ hd)
            · exact hsub.2

/-- Claim C3: resolve_measure_dependencies is a total function on every
formula and lookup map, including cyclically referencing ones — its
Lean definition recurses on the strictly decreasing count of unvisited
measure names, which is exactly the visited-set guard of the code — and
each \x7btable, column\x7d pair appears at most once in its result; the
resolver expands each measure name at most once, keeping the visited
set duplicate-free. -/
theorem c3_resolve_dependencies_terminates :
    (∀ (formula : String) (lookup : List ((String × String) × String)),
      (resolve_measure_dependencies formula lookup).Nodup) ∧
    (∀ (lookup : List ((String × String) × String)) (refs : List String)
        (deps : List MeasureDep) (visited : List String),
      deps.Nodup → visited.Nodup →
      (resolveRefs lookup refs deps visited).1.1.Nodup ∧
      (resolveRefs lookup refs deps visited).1.2.Nodup) := by
  constructor
  · intro formula lookup
    exact (resolveRefs_nodup lookup (unvisitedCount lookup []) _ _ _ le_rfl
      (directDeps_nodup _) List.nodup_nil).1
  · intro lookup refs deps visited hd hv
    exact resolveRefs_nodup lookup (unvisitedCount lookup visited) refs deps visited
      le_rfl hd hv

/-- Claim C3 witness: a two-measure cycle (A references B, B references
A back) still yields duplicate-free dependency and visited lists. -/
theorem c3_witness :
    (resolve_measure_dependencies "[A]"
      [(("T", "A"), "[B] + \x27T\x27[C]"), (("T", "B"), "[A]")]).Nodup ∧
    (resolveRefs [(("T", "A"), "[B] + \x27T\x27[C]"), (("T", "B"), "[A]")]
      ["A"] [] []).1.2.Nodup :=
  ⟨c3_resolve_dependencies_terminates.1 "[A]"
    [(("T", "A"), "[B] + \x27T\x27[C]"), (("T", "B"), "[A]")],
   (c3_resolve_dependencies_terminates.2
    [(("T", "A"), "[B] + \x27T\x27[C]"), (("T", "B"), "[A]")]
    ["A"] [] [] List.nodup_nil List.nodup_nil).2⟩
